import Mathlib

/-!
Verification of the racktables-to-netbox migration tool.

This file gives a shallow embedding, in Lean, of the algorithmic parts of the
migration pipeline (prefix/address/VLAN/device/interface stages and the
available-subnet gap analysis), translated from the Python sources, and proves
or refutes the frozen specification claims about them.

Conventions used throughout the embedding:
* IP addresses are modelled by their integer value (`Nat`), exactly the value
  Racktables stores and Python's `int(ipaddress.ip_address(...))` computes;
  a CIDR prefix is the pair (network integer, mask length).  The Python code
  compares the corresponding dotted/slash strings; since that rendering is
  injective, comparing the pairs is equivalent.
* Python dicts keyed by strings are modelled as association lists in insertion
  order; Python sets that only ever grow by `add` are modelled as lists with
  insert-if-absent.
* Calls to the NetBox REST API are modelled by an explicit environment: a
  create call consumes the next entry of an outcome oracle, succeeding with a
  fresh id or failing (the Python code catches per-record failures).
-/

namespace R2N

/-! ### Decimal rendering of counters

Python renders collision counters with `"{}".format(n)` / f-strings, i.e. the
decimal numeral.  We embed that rendering directly (rather than through
`Nat.repr`) so that its injectivity can be proved and evaluated. -/

/-- The decimal digit character for `n < 10` (as in Python's numeral rendering). -/
def digitChar (n : Nat) : Char :=
  match n with
  | 0 => '0' | 1 => '1' | 2 => '2' | 3 => '3' | 4 => '4'
  | 5 => '5' | 6 => '6' | 7 => '7' | 8 => '8' | 9 => '9'
  | _ => '*'

/-- Fuelled decimal rendering (structural recursion so that the kernel can
evaluate it; the fuel `n + 1` always suffices). -/
def natCharsAux : Nat → Nat → List Char
  | 0, _ => []
  | fuel + 1, n =>
    if n < 10 then [digitChar n]
    else natCharsAux fuel (n / 10) ++ [digitChar (n % 10)]

/-- The decimal numeral of `n` as a list of characters. -/
def natChars (n : Nat) : List Char := natCharsAux (n + 1) n

/-- The decimal numeral of `n` as a string, Python's `str(n)` for `n : Nat`. -/
def natStr (n : Nat) : String := ⟨natChars n⟩

/-! ### Bounded linear search

Both collision-resolution loops in the source (`devices.py`
`create_device_at_location` and `vlans.py` `create_vlans`) are
`while True` loops that try counters 1, 2, 3, … until an unused name is found.
They terminate because at most `|taken|` candidates can be taken.  We embed
them as a fuelled search from 1 with fuel `|taken| + 1` and prove that the
fuel always suffices. -/

/-- Search for the first `k ≥ start` with `p k`, trying at most `fuel` values. -/
def searchFrom (p : Nat → Bool) : Nat → Nat → Option Nat
  | 0, _ => none
  | fuel + 1, k => if p k then some k else searchFrom p fuel (k + 1)

/-- A name of the form `base ++ sep ++ <decimal k>`, as built by the Python
f-strings `f"{name}.{counter}"` and `f"{name}-{counter}"`. -/
def counterName (base sep : String) (k : Nat) : String :=
  base ++ sep ++ natStr k

/-- The collision-resolution loop: return `base` if free, otherwise the name
`base ++ sep ++ <k>` for the smallest counter `k ≥ 1` that is free.  This is
the `while True: … counter += 1` loop in `create_device_at_location`
(sep = ".") and `create_vlans` (sep = "-"). -/
def uniquifyName (base sep : String) (taken : List String) : String :=
  if base ∈ taken then
    match searchFrom (fun k => decide (counterName base sep k ∉ taken))
        (taken.length + 1) 1 with
    | some k => counterName base sep k
    | none => base
  else base

/-! ### Prefix status classification (`migration/netbox_status.py`)

`determine_prefix_status` scans a prefix's Racktables name and comment
(lower-cased, substring match) against keyword families, in source order.
`None` arguments are modelled as the empty string (the code guards every
access with `if prefix_name` / `if comment`). -/

/-- Python's `str.strip()` whitespace set (the ASCII part; the sources only
ever strip ASCII whitespace). -/
def isSpaceChar (c : Char) : Bool :=
  c = ' ' || c = '\t' || c = '\n' || c = '\r'

/-- `str.strip()`. -/
def strTrim (s : String) : String :=
  ⟨((s.data.dropWhile isSpaceChar).reverse.dropWhile isSpaceChar).reverse⟩

/-- ASCII lower-casing of one character, as `str.lower()` does on the ASCII
keyword alphabets these classifiers use. -/
def lowerChar (c : Char) : Char :=
  if 65 ≤ c.toNat ∧ c.toNat ≤ 90 then Char.ofNat (c.toNat + 32) else c

/-- `str.lower()`. -/
def strLower (s : String) : String := ⟨s.data.map lowerChar⟩

/-- Does `pat` occur as a contiguous run inside `l`? -/
def listContains (pat : List Char) : List Char → Bool
  | [] => pat.isEmpty
  | c :: rest => pat.isPrefixOf (c :: rest) || listContains pat rest

/-- Python's `term in text` substring test. -/
def hasTerm (text term : String) : Bool := listContains term.data text.data

/-- `any(term in lower_name or term in lower_comment for term in terms)`. -/
def anyTerm (lname lcomment : String) (terms : List String) : Bool :=
  terms.any (fun t => hasTerm lname t || hasTerm lcomment t)

/-- The code's fallback list of valid statuses (`valid_statuses is None`). -/
def defaultStatuses : List String := ["active", "container", "reserved", "deprecated"]

/-- `migration/netbox_status.py::determine_prefix_status`.  `valid : none`
models passing `valid_statuses=None`. -/
def determine_prefix_status (prefix_name comment : String)
    (valid? : Option (List String)) : String :=
  let valid := valid?.getD defaultStatuses
  let default_status := if "active" ∈ valid then "active" else valid.headD ""
  if strTrim prefix_name = "" ∧ strTrim comment = "" then
    if "reserved" ∈ valid then "reserved" else default_status
  else
    let lname := strLower prefix_name
    let lcomment := strLower comment
    if anyTerm lname lcomment ["reserved", "hold", "future", "planned"] then
      if "reserved" ∈ valid then "reserved" else default_status
    else if anyTerm lname lcomment
        ["deprecated", "obsolete", "old", "inactive", "decommissioned"] then
      if "deprecated" ∈ valid then "deprecated" else default_status
    else if anyTerm lname lcomment ["container", "parent", "supernet", "aggregate"] then
      if "container" ∈ valid then "container" else default_status
    else if anyTerm lname lcomment
        ["available", "unused", "free", "[here be dragons",
         "[create network here]", "unallocated"] then
      if "container" ∈ valid then "container" else default_status
    else if anyTerm lname lcomment ["in use", "used", "active", "production", "allocated"] then
      if "active" ∈ valid then "active" else default_status
    else
      default_status

/-- The keyword families exactly as the claim states them, in the claim's
order (used only to exhibit the counterexample). -/
def claimRules : List (List String × String) :=
  [(["reserved", "hold", "future", "planned"], "reserved"),
   (["deprecated", "obsolete", "old", "decommissioned"], "deprecated"),
   (["container", "parent", "supernet", "aggregate"], "container"),
   (["available", "unused", "free", "[dragons]", "[create network here]"], "container"),
   (["in use", "used", "active", "production", "allocated"], "active")]

/-- The classifier the claim describes: first matching family wins, any input
matching no family yields "active". -/
def prefixStatusClaim (name comment : String) : String :=
  match claimRules.find? (fun r => anyTerm (strLower name) (strLower comment) r.1) with
  | some r => r.2
  | none => "active"

/-- The keyword families as the code implements them (amended claim): the
deprecated family also holds "inactive", the available family also holds
"unallocated" and the literal prefix "[here be dragons". -/
def codeRules : List (List String × String) :=
  [(["reserved", "hold", "future", "planned"], "reserved"),
   (["deprecated", "obsolete", "old", "inactive", "decommissioned"], "deprecated"),
   (["container", "parent", "supernet", "aggregate"], "container"),
   (["available", "unused", "free", "[here be dragons",
     "[create network here]", "unallocated"], "container"),
   (["in use", "used", "active", "production", "allocated"], "active")]

/-- The amended claim's classifier, written from its words: empty name and
comment yield "reserved"; otherwise the first matching family of `codeRules`
wins; otherwise "active". -/
def prefixStatusSpec (name comment : String) : String :=
  if strTrim name = "" ∧ strTrim comment = "" then "reserved"
  else
    match codeRules.find? (fun r => anyTerm (strLower name) (strLower comment) r.1) with
    | some r => r.2
    | none => "active"

/-! ### Association-list helpers (Python dicts in insertion order) -/

/-- `set.add(x)` for a Python set modelled as a list. -/
def insertIfAbsent (l : List String) (s : String) : List String :=
  if s ∈ l then l else l ++ [s]

/-- `d[k] = v` for a Python dict modelled as an association list: replace
the (unique) entry in place, or append a new entry at the end. -/
def aput {α β : Type} [BEq α] : List (α × β) → α → β → List (α × β)
  | [], k, v => [(k, v)]
  | (a, b) :: rest, k, v =>
    if a == k then (a, v) :: rest else (a, b) :: aput rest k v

/-- `d.setdefault(k, dflt); d[k] = f(d[k])`, the init-then-update pattern. -/
def aupdate {α β : Type} [BEq α] :
    List (α × β) → α → β → (β → β) → List (α × β)
  | [], k, dflt, f => [(k, f dflt)]
  | (a, b) :: rest, k, dflt, f =>
    if a == k then (a, f b) :: rest else (a, b) :: aupdate rest k dflt f

/-- `d.get(k, dflt)`. -/
def aget {α β : Type} [BEq α] : List (α × β) → α → β → β
  | [], _, d => d
  | (a, b) :: rest, k, d => if a == k then b else aget rest k d

/-- `k in d`. -/
def hasKey {α β : Type} [BEq α] : List (α × β) → α → Bool
  | [], _ => false
  | (a, _) :: rest, k => a == k || hasKey rest k

/-! ### Interface name normalization
(`racktables_netbox_migration/db.py::change_interface_name`) -/

/-- `config.py::INTERFACE_NAME_MAPPINGS`, in insertion order. -/
def INTERFACE_NAME_MAPPINGS : List (String × String) :=
  [("Eth", "Ethernet"), ("eth", "Ethernet"), ("ethernet", "Ethernet"),
   ("Po", "Port-Channel"), ("Port-channel", "Port-Channel"),
   ("BE", "Bundle-Ether"), ("Lo", "Loopback"), ("Loop", "Loopback"),
   ("Vl", "VLAN"), ("Vlan", "VLAN"), ("Mg", "MgmtEth"), ("Se", "Serial"),
   ("Gi", "GigabitEthernet"), ("Te", "TenGigE"), ("Tw", "TwentyFiveGigE"),
   ("Fo", "FortyGigE"), ("Hu", "HundredGigE")]

/-- `interface_name[len(prefix)] in "0123456789- "`. -/
def nextCharOk (nm : List Char) (i : Nat) : Bool :=
  match nm.get? i with
  | some c => "0123456789- ".data.contains c
  | none => false

/-- `db.py::change_interface_name`: strip, then for routers/switches
(objtype 7/8) substitute each known short prefix followed by a digit, dash or
space by its long form (`str.replace(prefix, long, 1)`; the occurrence
replaced is the leading one since the name starts with the prefix). -/
def change_interface_name (interface_name : String) (objtype_id : Nat) : String :=
  let nm := strTrim interface_name
  if objtype_id = 7 ∨ objtype_id = 8 then
    INTERFACE_NAME_MAPPINGS.foldl (fun nm pr =>
      if pr.1.data.isPrefixOf nm.data ∧ pr.1.data.length < nm.data.length ∧
          nextCharOk nm.data pr.1.data.length then
        ⟨pr.2.data ++ nm.data.drop pr.1.data.length⟩
      else nm) nm
  else nm

/-! ### IP prefix and address stages (`migration/ips.py`) -/

/-- One row of the `IPv{4,6}Network` table. -/
structure NetworkRow where
  id : Nat
  ip : Nat
  mask : Nat
  name : String
  comment : String
deriving DecidableEq

/-- `ips.py::create_ip_networks`, restricted to which prefixes it creates:
skip host routes (/32 on IPv4, /128 on IPv6), then skip prefixes already in
the target (`existing_prefixes` is fetched once and never updated in the
loop).  Status, description, VLAN and tag parameters do not influence which
prefixes are created. -/
def create_ip_networks_creates (IP : String) (rows : List NetworkRow)
    (existing_prefixes : List (Nat × Nat)) : List (Nat × Nat) :=
  rows.filterMap (fun n =>
    if (IP = "4" ∧ n.mask = 32) ∨ (IP = "6" ∧ n.mask = 128) then none
    else if (n.ip, n.mask) ∈ existing_prefixes then none
    else some (n.ip, n.mask))

/-- One row of the `IPv{4,6}Address` table. -/
structure AddressRow where
  ip : Nat
  name : String
  comment : String
deriving DecidableEq

/-- An address present in the target, as the pair (integer value, optional
mask): the code compares the rendered strings with
`existing_ip == string_ip or existing_ip.startswith(string_ip + "/")`,
which on the injective dotted rendering is exactly equality of the values. -/
def ipMatches (existing : List (Nat × Option Nat)) (ip : Nat) : Bool :=
  existing.any (fun e => e.1 == ip)

/-- `ips.py::create_ip_not_allocated`: create every source address whose
value is not already present; no mask-based filter exists in this stage. -/
def create_ip_not_allocated_creates (rows : List AddressRow)
    (existing : List (Nat × Option Nat)) : List Nat :=
  rows.filterMap (fun r => if ipMatches existing r.ip then none else some r.ip)

/-- One joined row of `IPv{4,6}Allocation ⋈ Object`.  `name` is the
allocation's interface name and `device_name` the owning object's name
(`""` models SQL NULL). -/
structure AllocationRow where
  object_id : Nat
  ip : Nat
  name : String
  type : String
  objtype_id : Nat
  device_name : String
deriving DecidableEq

/-- Environment for one allocation record: the owning device's/VM's current
interfaces, the resolution of the device id by name, the randomized fallback
interface name, and the success of the HTTP create calls. -/
structure AllocEnv where
  interfaces : List (String × Nat)
  deviceId : Option Nat
  randName : String
  createIpOk : Bool
  createNewOk : Bool

/-- Per-record outcome of `ips.py::create_ip_allocated`. -/
inductive AllocOutcome where
  | skippedNoDevice
  | skippedExisting
  | createdOnExisting (interfaceId : Nat) (role : Option String)
  | createdOnNew (interfaceName : String) (role : Option String)
  | skippedNoDeviceId
  | errored
deriving DecidableEq

/-- The interface name the allocation is bound to: the normalized source
name, or the randomized `no_RT_name<rand>` fallback when the source has
none. -/
def allocInterfaceName (env : AllocEnv) (alloc : AllocationRow) : String :=
  if alloc.name ≠ "" then change_interface_name alloc.name alloc.objtype_id
  else env.randName

/-- `ips.py::create_ip_allocated`, the per-record body of the loop (lines
213–369): skip when the device name is missing; skip when the address value
already exists unless the allocation type is "shared"; shared addresses get
the "vrrp" role; attach to the matching interface if one exists, else create
a virtual interface on the resolved device (each failure caught per record). -/
def processAllocation (env : AllocEnv) (existing : List (Nat × Option Nat))
    (alloc : AllocationRow) : AllocOutcome :=
  if alloc.device_name = "" then .skippedNoDevice
  else
    let existing_match := ipMatches existing alloc.ip
    if existing_match ∧ alloc.type ≠ "shared" then .skippedExisting
    else
      let use_vrrp_role : Option String :=
        if alloc.type = "shared" then some "vrrp" else none
      let interface_name := allocInterfaceName env alloc
      let onNew : AllocOutcome :=
        match env.deviceId with
        | none => .skippedNoDeviceId
        | some _ =>
          if env.createNewOk then .createdOnNew interface_name use_vrrp_role
          else .errored
      match env.interfaces.find? (fun p => p.1 == interface_name) with
      | some p => if env.createIpOk then .createdOnExisting p.2 use_vrrp_role else onNew
      | none => onNew

/-- Whether a per-record outcome created an address. -/
def isCreatedOutcome : AllocOutcome → Bool
  | .createdOnExisting _ _ => true
  | .createdOnNew _ _ => true
  | _ => false

/-! ### VLAN stage (`migration/vlans.py::create_vlans`)

Each row models one row of `VLANIPv{4,6}` joined with its `VLANDomain`
description (the group name) and its `VLANDescription` name lookup. -/

structure VlanRow where
  group : String
  vid : Nat
  descr : Option String
  net_id : Nat
deriving DecidableEq

structure VlanState where
  vlans_for_group : List (String × List String)
  calls : List (String × Nat × String)
  created : List (String × Nat × String × Nat)
  network_map : List (Nat × (String × String × Nat))
  nextId : Nat
  callIdx : Nat
deriving DecidableEq

/-- One iteration of the VLAN loop.  Note that the function consults no
target-system state: `vlans_for_group` starts empty each run and only tracks
names created during this run; `netbox.ipam.create_vlan` is called for every
named source VLAN row (`calls`), succeeding or not according to `env`. -/
def create_vlans_step (env : Nat → Bool) (st : VlanState) (row : VlanRow) : VlanState :=
  match row.descr with
  | none => st
  | some vlan_name =>
    if vlan_name = "" then st
    else
      let set := aget st.vlans_for_group row.group []
      let name := uniquifyName vlan_name "-" set
      let idx := st.callIdx
      if env idx then
        { vlans_for_group := aupdate st.vlans_for_group row.group [] (fun s => insertIfAbsent s name),
          calls := st.calls ++ [(row.group, row.vid, name)],
          created := st.created ++ [(row.group, row.vid, name, st.nextId)],
          network_map := aput st.network_map row.net_id (row.group, name, st.nextId),
          nextId := st.nextId + 1,
          callIdx := idx + 1 }
      else
        { st with calls := st.calls ++ [(row.group, row.vid, name)], callIdx := idx + 1 }

/-- `vlans.py::create_vlans` over all rows (IPv4 rows then IPv6 rows, in
query order). -/
def create_vlans_run (rows : List VlanRow) (env : Nat → Bool) : VlanState :=
  rows.foldl (create_vlans_step env) ⟨[], [], [], [], 0, 0⟩

/-- The names of the VLANs successfully created in group `g` during a run,
in creation order. -/
def createdNamesInGroup (st : VlanState) (g : String) : List String :=
  (st.created.filter (fun c => c.1 == g)).map (fun c => c.2.2.1)

/-- A VLAN row that reaches the create call: it has a non-empty description
(`if not vlan_name: continue`). -/
def vlanRowNamed (r : VlanRow) : Bool :=
  match r.descr with
  | none => false
  | some d => d ≠ ""

/-! ### Racked-device stage (`racktables-to-netbox/devices.py`) -/

/-- The fields of a NetBox device record that
`create_device_at_location` reads back. -/
structure DeviceRec where
  name : String
  id : Nat
  face : String
  position : Nat
  role : String
  manufacturer : String
  model : String
  site : String
  rack : String
deriving DecidableEq

/-- The discriminating location tuple compared by
`create_device_at_location`. -/
structure LocTuple where
  face : String
  position : Nat
  role : String
  manufacturer : String
  model : String
  site : String
  rack : String
deriving DecidableEq

def matchesLocation (t : LocTuple) (d : DeviceRec) : Bool :=
  t.face == d.face && t.position == d.position && t.role == d.role &&
  t.manufacturer == d.manufacturer && t.model == d.model &&
  t.site == d.site && t.rack == d.rack

/-- The module-level mutable state of `devices.py` that
`create_device_at_location` touches, plus a fresh-id supply standing for the
ids NetBox assigns. -/
structure DevState where
  global_devices : List DeviceRec
  global_names : List String
  asset_tags : List String
  nextId : Nat
deriving DecidableEq

/-- The device record NetBox returns for a create at location `t` (the
fields later runs of the loop compare against). -/
def mkDevRec (nm : String) (i : Nat) (t : LocTuple) : DeviceRec :=
  ⟨nm, i, t.face, t.position, t.role, t.manufacturer, t.model, t.site, t.rack⟩

/-- `devices.py::create_device_at_location`: find a device at the same
(face, position, role, manufacturer, model, site, rack) tuple and return its
name/id; otherwise disambiguate the name against `global_names` with `.1`,
`.2`, … counters and create, returning `none` (Python `(None, None)`) if the
create call fails.  `createOk` is the outcome of `netbox.dcim.create_device`. -/
def create_device_at_location (st : DevState) (createOk : Bool)
    (device_name : String) (t : LocTuple) (asset_no : Option String) :
    Option (String × Nat) × DevState :=
  match st.global_devices.find? (matchesLocation t) with
  | some d => (some (d.name, d.id), st)
  | none =>
    let name_at_location := uniquifyName device_name "." st.global_names
    let asset1 := asset_no.map strTrim
    let asset2 := match asset1 with
      | some a => if a ≠ "" ∧ a ∈ st.asset_tags then some (a ++ "-1") else some a
      | none => none
    if createOk then
      (some (name_at_location, st.nextId),
       { global_devices := st.global_devices ++ [mkDevRec name_at_location st.nextId t],
         global_names := insertIfAbsent st.global_names name_at_location,
         asset_tags := match asset2 with
           | some a => if a ≠ "" then insertIfAbsent st.asset_tags a else st.asset_tags
           | none => st.asset_tags,
         nextId := st.nextId + 1 })
    else (none, st)

/-- One object placed in a rack, after the atoms grouping and the `Object`
row fetch of `create_devices_in_rack` (face, height and the
role/manufacturer/type names from `get_manufacturer_role_type` are data
joins from the source database). -/
structure RackRecord where
  obj_id : Nat
  objtype_id : Nat
  name : String
  asset_no : Option String
  face : String
  start_height : Nat
  device_role : String
  manufacturer : String
  device_type_model : String
deriving DecidableEq

/-- Outcomes of the four NetBox create calls issued per rack record. -/
structure RackEnv where
  roleOk : String → Bool
  manuOk : String → Bool
  typeOk : String → Bool
  deviceOk : Nat → Bool

structure RackState where
  roles : List String
  manufacturers : List String
  device_types : List String
  dev : DevState
  physical_ids : List (String × Nat × Nat × Nat)
  processed : Nat
deriving DecidableEq

/-- `config.py::PARENT_OBJTYPE_IDS` (first components of
`PARENT_CHILD_OBJTYPE_ID_PAIRS`). -/
def PARENT_OBJTYPE_IDS : List Nat := [1502, 9]

/-- One iteration of `devices.py::create_devices_in_rack` (lines 236–314).
The `create_device_role`, `create_manufacturer` and `create_device_type`
calls are issued with NO enclosing try/except: their failure raises out of
the loop, modelled by `Except.error`.  The `create_device` call inside
`create_device_at_location` IS wrapped, so its failure only loses the one
record. -/
def create_devices_in_rack_step (env : RackEnv) (site_name rack_name : String)
    (st : RackState) (r : RackRecord) : Except String RackState :=
  if r.device_role ∉ st.roles ∧ env.roleOk r.device_role = false then
    Except.error "create_device_role"
  else
    let st1 := if r.device_role ∈ st.roles then st
      else { st with roles := insertIfAbsent st.roles r.device_role }
    if r.manufacturer ∉ st1.manufacturers ∧ env.manuOk r.manufacturer = false then
      Except.error "create_manufacturer"
    else
      let st2 := if r.manufacturer ∈ st1.manufacturers then st1
        else { st1 with manufacturers := insertIfAbsent st1.manufacturers r.manufacturer }
      let model := r.device_type_model ++
        (if r.objtype_id ∈ PARENT_OBJTYPE_IDS then "-parent" else "")
      if model ∉ st2.device_types ∧ env.typeOk model = false then
        Except.error "create_device_type"
      else
        let st3 := if model ∈ st2.device_types then st2
          else { st2 with device_types := insertIfAbsent st2.device_types model }
        let res := create_device_at_location st3.dev (env.deviceOk r.obj_id) r.name
          ⟨r.face, r.start_height, r.device_role, r.manufacturer, model,
           site_name, rack_name⟩ r.asset_no
        Except.ok { st3 with
          dev := res.2,
          physical_ids := match res.1 with
            | some (nm, did) => st3.physical_ids ++ [(nm, r.obj_id, did, r.objtype_id)]
            | none => st3.physical_ids,
          processed := st3.processed + 1 }

/-- `devices.py::create_devices_in_rack` over all records of one rack. -/
def create_devices_in_rack (env : RackEnv) (site_name rack_name : String)
    (st0 : RackState) (records : List RackRecord) : Except String RackState :=
  records.foldlM (create_devices_in_rack_step env site_name rack_name) st0

/-- One row of the data list passed to
`devices.py::create_parent_child_devices`. -/
structure PCRow where
  id : Nat
  name : String
  label : String
  asset_no : Option String
  comment : String
deriving DecidableEq

/-- `devices.py::create_parent_child_devices`, restricted to which device
names it attempts to create (lines 370–391): skip unnamed objects and any
object whose stripped name is already a device name in the target
(`existing_device_names` is fetched once at stage start and not extended
during the loop). -/
def create_parent_child_creates (data : List PCRow)
    (existing_device_names : List String) : List String :=
  data.filterMap (fun r =>
    if r.name = "" then none
    else
      let object_name := strTrim r.name
      if object_name ∈ existing_device_names then none
      else some object_name)

/-! ### Interface stage (`interfaces.py::create_interfaces`) -/

/-- One row of the `Port` table for a device. -/
structure PortRow where
  id : Nat
  name : String
  typeId : Nat
  label : String
deriving DecidableEq

/-- One tracked device: `(device_name, racktables_id, netbox_id, objtype_id)`. -/
structure DevEntry where
  device_name : String
  racktables_id : Nat
  netbox_id : Nat
  objtype_id : Nat
deriving DecidableEq

structure IfaceState where
  namesFor : List (Nat × List String)
  idsFor : List (Nat × List (String × Nat))
  connection_ids : List (Nat × Nat)
  interface_counter : Nat
  callIdx : Nat
  visited : List Nat
deriving DecidableEq

/-- Build `interface_local_names_for_device` and
`interface_netbox_ids_for_device` from the interfaces fetched out of NetBox
(lines 87–98): both maps are filled from the same records, name set and
name→id map in lockstep. -/
def buildInterfaceMaps (recs : List (Nat × String × Nat)) : IfaceState :=
  recs.foldl (fun st r =>
    { st with
      namesFor := aupdate st.namesFor r.1 [] (fun s => insertIfAbsent s r.2.1),
      idsFor := aupdate st.idsFor r.1 [] (fun m => aput m r.2.1 r.2.2) })
    ⟨[], [], [], 0, 0, []⟩

/-- The body of the port loop of `create_interfaces` (lines 132–175): skip
unnamed ports; normalize the name; if the normalized name already exists on
the device, record the racktables-port-id → netbox-interface-id link and skip
creation; else create (outcome from `env`, by call index) and on success
track the new name, its id and the link.  `visited` records every port row
iterated, failures included.  (The default 0 of the id lookup in the skip
branch is unreachable: the name set and the name→id map are only ever
extended together, in `buildInterfaceMaps` and in the create branch, so a
name present in the set always has an id entry.) -/
def create_interfaces_port (env : Nat → Option Nat) (d : DevEntry)
    (st : IfaceState) (p : PortRow) : IfaceState :=
  let st := { st with visited := st.visited ++ [p.id] }
  if p.name = "" then st
  else
    let interface_name := change_interface_name p.name d.objtype_id
    if interface_name ∈ aget st.namesFor d.netbox_id [] then
      let nid := aget (aget st.idsFor d.netbox_id []) interface_name 0
      { st with connection_ids := aput st.connection_ids p.id nid }
    else
      match env st.callIdx with
      | some newId =>
        { st with
          namesFor := aupdate st.namesFor d.netbox_id [] (fun s => insertIfAbsent s interface_name),
          idsFor := aupdate st.idsFor d.netbox_id [] (fun m => aput m interface_name newId),
          connection_ids := aput st.connection_ids p.id newId,
          interface_counter := st.interface_counter + 1,
          callIdx := st.callIdx + 1 }
      | none => { st with callIdx := st.callIdx + 1 }

/-- `interfaces.py::create_interfaces` over the tracked devices (physical
then non-physical), given each device's ports and the create-call oracle. -/
def create_interfaces_run (recs : List (Nat × String × Nat))
    (devices : List DevEntry) (ports : Nat → List PortRow)
    (env : Nat → Option Nat) : IfaceState :=
  devices.foldl (fun st d => (ports d.racktables_id).foldl (create_interfaces_port env d) st)
    (buildInterfaceMaps recs)

/-! ### Available-subnet gap analysis
(`migration/extended/available_subnets.py::create_available_subnets`)

A prefix is the pair (network address integer, prefix length); `width` is 32
for IPv4 and 128 for IPv6.  The run mixes both families, but cross-family
`subnet_of` raises `TypeError` which the code catches and skips, so the two
families are processed independently; we model one family per run. -/

structure Pfx where
  addr : Nat
  len : Nat
deriving DecidableEq

/-- Number of addresses covered by a prefix. -/
def pfxSize (width : Nat) (p : Pfx) : Nat := 2 ^ (width - p.len)

/-- One past the broadcast address. -/
def pfxEnd (width : Nat) (p : Pfx) : Nat := p.addr + pfxSize width p

/-- `self.subnet_of(other)` on well-formed networks: interval containment. -/
def subnetOf (width : Nat) (a b : Pfx) : Bool :=
  b.addr ≤ a.addr && pfxEnd width a ≤ pfxEnd width b

/-- The parent-search loop (lines 175–200): among all other prefixes with a
strictly shorter mask containing `p`, keep the one with the SHORTEST mask
(the widest supernet — the code replaces its candidate whenever the new one
has a smaller prefixlen). -/
def findParent (width : Nat) (all : List Pfx) (p : Pfx) : Option Pfx :=
  all.foldl (fun best q =>
    if q = p then best
    else if p.len ≤ q.len then best
    else if subnetOf width p q then
      match best with
      | none => some q
      | some b => if q.len < b.len then some q else best
    else best) none

/-- The grouping loop (lines 154–208): each prefix narrower than the host
threshold (`/31`+ for IPv4, `/127`+ for IPv6 are skipped) is appended to the
child list of its parent, groups keyed in first-seen order. -/
def groupPrefixes (width hostMax : Nat) (all : List Pfx) : List (Pfx × List Pfx) :=
  all.foldl (fun groups p =>
    if hostMax ≤ p.len then groups
    else
      match findParent width all p with
      | none => groups
      | some par => aupdate groups par [] (fun l => l ++ [p])) []

/-- The first two subnets of length `l` of the block of length `plen` based
at `base` (`list(gap_network.subnets(new_prefix=l))[:2]`; there are at least
two since `l > plen`). -/
def firstTwoSubnets (width base l : Nat) : List Pfx :=
  [⟨base, l⟩, ⟨base + 2 ^ (width - l), l⟩]

/-- Candidate subnets created for a gap between consecutive children (lines
252–286): `ipaddress.ip_network((prev_end, parent.prefixlen))` is strict, so
when `prev_end` has host bits below the parent's mask the constructor raises
`ValueError`, the error is logged, and the gap yields nothing; otherwise for
each candidate length `l > plen`, take the first two subnets of the block and
keep those lying entirely below the next child's start. -/
def midGapSubnets (width : Nat) (sizes : List Nat) (base plen start : Nat) : List Pfx :=
  if base % 2 ^ (width - plen) = 0 then
    (sizes.filter (fun l => plen < l)).flatMap (fun l =>
      (firstTwoSubnets width base l).filter (fun s =>
        s.addr < start && s.addr + 2 ^ (width - l) - 1 < start))
  else []

/-- Candidate subnets for the trailing gap after the last child (lines
292–324): same block construction (same strictness failure) but no
fit filter on the first two subnets of each length. -/
def endGapSubnets (width : Nat) (sizes : List Nat) (base plen : Nat) : List Pfx :=
  if base % 2 ^ (width - plen) = 0 then
    (sizes.filter (fun l => plen < l)).flatMap (fun l => firstTwoSubnets width base l)
  else []

/-- The walk over a parent's sorted children (lines 238–289): whenever the
next child starts after `prev_end` there is a gap `[prev_end, start-1]`;
collect the gap intervals and the candidate subnets; `prev_end` then moves
past the child. -/
def walkChildren (width : Nat) (sizes : List Nat) (plen : Nat) :
    List Pfx → Nat → List (Nat × Nat) × List Pfx × Nat
  | [], prev_end => ([], [], prev_end)
  | c :: rest, prev_end =>
    let start := c.addr
    let here : List (Nat × Nat) × List Pfx :=
      if prev_end < start then
        ([(prev_end, start - 1)], midGapSubnets width sizes prev_end plen start)
      else ([], [])
    let next := walkChildren width sizes plen rest (c.addr + pfxSize width c)
    (here.1 ++ next.1, here.2 ++ next.2.1, next.2.2)

/-- Insert `x` after all list entries whose address is ≤ its own. -/
def insertByAddr (x : Pfx) : List Pfx → List Pfx
  | [] => [x]
  | y :: ys => if y.addr ≤ x.addr then y :: insertByAddr x ys else x :: y :: ys

/-- `child_prefixes.sort(key=get_network_addr)`: stable sort by network
address (as a stable sort its result is determined by comparator and input
order, so this insertion sort computes exactly what Python's sort does). -/
def sortByAddr (l : List Pfx) : List Pfx :=
  l.foldl (fun acc x => insertByAddr x acc) []

/-- Process one parent group (lines 214–324): sort children by network
address, walk the gaps, then check the trailing gap up to the parent's
broadcast address. -/
def processGroup (width : Nat) (sizes : List Nat) (parent : Pfx)
    (children : List Pfx) : List (Nat × Nat) × List Pfx :=
  let sorted := sortByAddr children
  let w := walkChildren width sizes parent.len sorted parent.addr
  let prev_end := w.2.2
  let broadcast := pfxEnd width parent - 1
  if prev_end < broadcast then
    (w.1 ++ [(prev_end, broadcast)], w.2.1 ++ endGapSubnets width sizes prev_end parent.len)
  else (w.1, w.2.1)

/-- The IPv4 candidate lengths of the source (`[24, 25, 26, 27, 28, 29]`). -/
def v4Sizes : List Nat := [24, 25, 26, 27, 28, 29]

/-- The IPv6 candidate lengths of the source (`[64, 80, 96, 112]`). -/
def v6Sizes : List Nat := [64, 80, 96, 112]

/-- `create_available_subnets`: all candidate subnets the engine attempts to
create, across all parent groups. -/
def create_available_subnets (width hostMax : Nat) (sizes : List Nat)
    (all : List Pfx) : List Pfx :=
  (groupPrefixes width hostMax all).flatMap (fun g => (processGroup width sizes g.1 g.2).2)

/-- The gap intervals (inclusive endpoints) the engine identifies, per parent
group. -/
def available_gaps (width hostMax : Nat) (sizes : List Nat) (all : List Pfx) :
    List (Pfx × List (Nat × Nat)) :=
  (groupPrefixes width hostMax all).map (fun g => (g.1, (processGroup width sizes g.1 g.2).1))

/-! ## Theorems -/

theorem digitChar_inj {a b : Nat} (ha : a < 10) (hb : b < 10)
    (h : digitChar a = digitChar b) : a = b := by
  interval_cases a <;> interval_cases b <;> simp_all [digitChar]

theorem natCharsAux_congr :
    ∀ (n : Nat) {f1 f2 : Nat}, n < f1 → n < f2 →
      natCharsAux f1 n = natCharsAux f2 n := by
  intro n
  induction n using Nat.strong_induction_on with
  | _ n ih =>
    intro f1 f2 h1 h2
    cases f1 with
    | zero => omega
    | succ g1 =>
      cases f2 with
      | zero => omega
      | succ g2 =>
        rw [natCharsAux, natCharsAux]
        by_cases h : n < 10
        · simp [h]
        · simp only [h, if_false]
          have hlt : n / 10 < n := Nat.div_lt_self (by omega) (by omega)
          rw [@ih (n / 10) hlt g1 g2 (by omega) (by omega)]

theorem natChars_lt {n : Nat} (h : n < 10) : natChars n = [digitChar n] := by
  rw [natChars, natCharsAux]
  simp [h]

theorem natChars_ge {n : Nat} (h : ¬ n < 10) :
    natChars n = natChars (n / 10) ++ [digitChar (n % 10)] := by
  have hlt : n / 10 < n := Nat.div_lt_self (by omega) (by omega)
  rw [natChars, natChars, natCharsAux]
  simp only [h, if_false]
  congr 1
  exact @natCharsAux_congr (n / 10) n (n / 10 + 1) (by omega) (by omega)

theorem natChars_ne_nil (n : Nat) : natChars n ≠ [] := by
  by_cases h : n < 10
  · rw [natChars_lt h]; simp
  · rw [natChars_ge h]; simp

theorem natChars_length_pos (n : Nat) : 1 ≤ (natChars n).length := by
  have := natChars_ne_nil n
  cases hh : natChars n with
  | nil => exact absurd hh this
  | cons a l => simp

theorem natChars_length_ge_two {n : Nat} (h : ¬ n < 10) :
    2 ≤ (natChars n).length := by
  rw [natChars_ge h]
  have := natChars_length_pos (n / 10)
  simp only [List.length_append, List.length_cons, List.length_nil]
  omega

theorem natChars_inj : ∀ {a b : Nat}, natChars a = natChars b → a = b := by
  intro a
  induction a using Nat.strong_induction_on with
  | _ a ih =>
    intro b h
    by_cases ha : a < 10 <;> by_cases hb : b < 10
    · rw [natChars_lt ha, natChars_lt hb] at h
      exact digitChar_inj ha hb (List.cons.inj h).1
    · exfalso
      have h2 := natChars_length_ge_two hb
      rw [natChars_lt ha] at h
      have : (natChars b).length = 1 := by rw [← h]; simp
      omega
    · exfalso
      have h2 := natChars_length_ge_two ha
      rw [natChars_lt hb] at h
      have : (natChars a).length = 1 := by rw [h]; simp
      omega
    · rw [natChars_ge ha, natChars_ge hb] at h
      have hlen : [digitChar (a % 10)].length = [digitChar (b % 10)].length := by simp
      obtain ⟨h1, h2⟩ := List.append_inj' h hlen
      have hdiv : a / 10 = b / 10 :=
        ih (a / 10) (Nat.div_lt_self (by omega) (by omega)) h1
      have hmod : a % 10 = b % 10 := by
        have := List.head_eq_of_cons_eq h2
        exact digitChar_inj (Nat.mod_lt _ (by omega)) (Nat.mod_lt _ (by omega)) this
      omega

theorem natStr_inj {a b : Nat} (h : natStr a = natStr b) : a = b := by
  apply natChars_inj
  have : (natStr a).data = (natStr b).data := by rw [h]
  exact this

theorem searchFrom_some {p : Nat → Bool} :
    ∀ {fuel start k}, searchFrom p fuel start = some k →
      p k = true ∧ start ≤ k ∧ ∀ j, start ≤ j → j < k → p j = false := by
  intro fuel
  induction fuel with
  | zero => intro start k h; simp [searchFrom] at h
  | succ n ih =>
    intro start k h
    rw [searchFrom] at h
    by_cases hp : p start
    · simp only [hp, if_true, Option.some.injEq] at h
      subst h
      exact ⟨hp, Nat.le_refl _, fun j h1 h2 => absurd (Nat.lt_of_le_of_lt h1 h2) (Nat.lt_irrefl _)⟩
    · simp only [hp, if_false] at h
      obtain ⟨h1, h2, h3⟩ := ih h
      refine ⟨h1, by omega, fun j hj1 hj2 => ?_⟩
      by_cases hj : j = start
      · subst hj; exact Bool.not_eq_true _ |>.mp hp
      · exact h3 j (by omega) hj2

theorem searchFrom_none {p : Nat → Bool} :
    ∀ {fuel start}, searchFrom p fuel start = none →
      ∀ j, start ≤ j → j < start + fuel → p j = false := by
  intro fuel
  induction fuel with
  | zero => intro start _ j h1 h2; omega
  | succ n ih =>
    intro start h j h1 h2
    rw [searchFrom] at h
    by_cases hp : p start
    · simp [hp] at h
    · simp only [hp, if_false] at h
      by_cases hj : j = start
      · subst hj; exact Bool.not_eq_true _ |>.mp hp
      · exact ih h j (by omega) (by omega)

theorem counterName_inj {base sep : String} {j k : Nat}
    (h : counterName base sep j = counterName base sep k) : j = k := by
  apply natStr_inj
  unfold counterName at h
  have hd : (base ++ sep ++ natStr j).data = (base ++ sep ++ natStr k).data := by rw [h]
  have e1 : (base ++ sep ++ natStr j).data
      = base.data ++ sep.data ++ (natStr j).data := rfl
  have e2 : (base ++ sep ++ natStr k).data
      = base.data ++ sep.data ++ (natStr k).data := rfl
  rw [e1, e2] at hd
  have := List.append_cancel_left hd
  exact congrArg String.mk this

/-- Among the candidates `counterName base sep 1 … counterName base sep (n+1)`,
with `n = taken.length`, at least one is not taken (pigeonhole). -/
theorem counterName_exists_free (base sep : String) (taken : List String) :
    ∃ k, 1 ≤ k ∧ k ≤ taken.length + 1 ∧ counterName base sep k ∉ taken := by
  by_contra hall
  push_neg at hall
  have hsub : ∀ k ∈ Finset.range (taken.length + 1),
      counterName base sep (k + 1) ∈ taken.toFinset := by
    intro k hk
    rw [List.mem_toFinset]
    exact hall (k + 1) (by omega) (by simp at hk; omega)
  have hinj : ∀ a ∈ Finset.range (taken.length + 1),
      ∀ b ∈ Finset.range (taken.length + 1),
      counterName base sep (a + 1) = counterName base sep (b + 1) → a = b := by
    intro a _ b _ h
    have := counterName_inj h
    omega
  have hcard := Finset.card_le_card_of_injOn
    (fun k => counterName base sep (k + 1)) hsub hinj
  rw [Finset.card_range] at hcard
  have := taken.toFinset_card_le
  omega

theorem uniquify_search_isSome (base sep : String) (taken : List String) :
    (searchFrom (fun k => decide (counterName base sep k ∉ taken))
        (taken.length + 1) 1).isSome := by
  cases hs : searchFrom (fun k => decide (counterName base sep k ∉ taken))
      (taken.length + 1) 1 with
  | some k => rfl
  | none =>
    exfalso
    obtain ⟨k, hk1, hk2, hk3⟩ := counterName_exists_free base sep taken
    have := searchFrom_none hs k hk1 (by omega)
    simp at this
    exact hk3 this

/-- The chosen name is never already taken. -/
theorem uniquifyName_not_mem (base sep : String) (taken : List String) :
    uniquifyName base sep taken ∉ taken := by
  unfold uniquifyName
  by_cases hb : base ∈ taken
  · simp only [hb, if_true]
    have hsome := uniquify_search_isSome base sep taken
    cases hs : searchFrom (fun k => decide (counterName base sep k ∉ taken))
        (taken.length + 1) 1 with
    | none => rw [hs] at hsome; simp at hsome
    | some k =>
      simp only
      have := (searchFrom_some hs).1
      simpa using this
  · rw [if_neg hb]
    exact hb

/-- When the base name is taken, the chosen counter is the smallest free one:
in particular all smaller counters down to 1 name already-taken entries. -/
theorem uniquifyName_minimal (base sep : String) (taken : List String)
    (hb : base ∈ taken) :
    ∃ k, 1 ≤ k ∧ uniquifyName base sep taken = counterName base sep k ∧
      counterName base sep k ∉ taken ∧
      ∀ j, 1 ≤ j → j < k → counterName base sep j ∈ taken := by
  unfold uniquifyName
  simp only [hb, if_true]
  have hsome := uniquify_search_isSome base sep taken
  cases hs : searchFrom (fun k => decide (counterName base sep k ∉ taken))
      (taken.length + 1) 1 with
  | none => rw [hs] at hsome; simp at hsome
  | some k =>
    obtain ⟨h1, h2, h3⟩ := searchFrom_some hs
    refine ⟨k, h2, rfl, by simpa using h1, fun j hj1 hj2 => ?_⟩
    have := h3 j hj1 hj2
    simpa using this

/-! ### Claim C7 — prefix status classifier (corrected) -/

/-- C7 counterexample: on the input name "inactive" (empty comment) the
claim's keyword families yield "active" (the word contains "active", the
in-use family, and none of the claim's earlier families), but the code
returns "deprecated", because its deprecated family also contains the
keyword "inactive", which the claim omits.  So the claim's description of
the classifier is false. -/
theorem C7_counterexample :
    prefixStatusClaim "inactive" "" = "active" ∧
    determine_prefix_status "inactive" "" none = "deprecated" ∧
    ("deprecated" : String) ≠ "active" := by
  refine ⟨by decide, by decide, by decide⟩

/-- C7 (amended): the classifier scans name and comment case-insensitively
against the keyword families of `codeRules` in order — reserved/hold/future/
planned ⇒ reserved; deprecated/obsolete/old/inactive/decommissioned ⇒
deprecated; container/parent/supernet/aggregate ⇒ container; available/
unused/free/"[here be dragons"/"[create network here]"/unallocated ⇒
container; "in use"/used/active/production/allocated ⇒ active — with two
further rules the original claim missed: a prefix whose name and comment are
both empty (or whitespace) is classified "reserved", and only inputs
matching no family fall back to "active". -/
theorem C7_theorem (name comment : String) :
    determine_prefix_status name comment none = prefixStatusSpec name comment := by
  unfold determine_prefix_status prefixStatusSpec codeRules
  simp only [Option.getD_none, List.find?]
  split_ifs <;> simp_all [defaultStatuses]

/-! ### Claim C5 — host-route exclusion (confirmed) -/

/-- C5: the prefix stage never creates a prefix from a row with IPv4 mask 32
or IPv6 mask 128 (no created prefix carries such a mask), while the
non-allocated address stage applies no mask filter: any source address row
whose value is not already present in the target is created. -/
theorem C5_theorem :
    (∀ (rows : List NetworkRow) (existing : List (Nat × Nat)) (pm : Nat × Nat),
       pm ∈ create_ip_networks_creates "4" rows existing → pm.2 ≠ 32) ∧
    (∀ (rows : List NetworkRow) (existing : List (Nat × Nat)) (pm : Nat × Nat),
       pm ∈ create_ip_networks_creates "6" rows existing → pm.2 ≠ 128) ∧
    (∀ (rows : List AddressRow) (existing : List (Nat × Option Nat)) (r : AddressRow),
       r ∈ rows → ipMatches existing r.ip = false →
       r.ip ∈ create_ip_not_allocated_creates rows existing) := by
  refine ⟨?_, ?_, ?_⟩
  · intro rows existing pm hm
    simp only [create_ip_networks_creates, List.mem_filterMap] at hm
    obtain ⟨n, _, hn⟩ := hm
    by_cases h1 : True ∧ n.mask = 32 ∨ ("4" : String) = "6" ∧ n.mask = 128
    · rw [if_pos h1] at hn
      cases hn
    · rw [if_neg h1] at hn
      by_cases h2 : (n.ip, n.mask) ∈ existing
      · rw [if_pos h2] at hn
        cases hn
      · rw [if_neg h2] at hn
        rcases Option.some.inj hn with rfl
        intro hc
        exact h1 (Or.inl ⟨trivial, hc⟩)
  · intro rows existing pm hm
    simp only [create_ip_networks_creates, List.mem_filterMap] at hm
    obtain ⟨n, _, hn⟩ := hm
    by_cases h1 : ("6" : String) = "4" ∧ n.mask = 32 ∨ True ∧ n.mask = 128
    · rw [if_pos h1] at hn
      cases hn
    · rw [if_neg h1] at hn
      by_cases h2 : (n.ip, n.mask) ∈ existing
      · rw [if_pos h2] at hn
        cases hn
      · rw [if_neg h2] at hn
        rcases Option.some.inj hn with rfl
        intro hc
        exact h1 (Or.inr ⟨trivial, hc⟩)
  · intro rows existing r hr hmatch
    simp only [create_ip_not_allocated_creates, List.mem_filterMap]
    exact ⟨r, hr, by simp [hmatch]⟩

/-- C5 witness: a /32 IPv4 row creates no prefix while its address is
created by the address stage. -/
theorem C5_witness :
    ((⟨7, 32⟩ : Nat × Nat) ∈
        create_ip_networks_creates "4" [⟨1, 7, 32, "n", "c"⟩] [] → (32 : Nat) ≠ 32) ∧
    (7 : Nat) ∈ create_ip_not_allocated_creates [⟨7, "n", "c"⟩] [] :=
  ⟨fun h => C5_theorem.1 [⟨1, 7, 32, "n", "c"⟩] [] ⟨7, 32⟩ h,
   C5_theorem.2.2 [⟨7, "n", "c"⟩] [] ⟨7, "n", "c"⟩ (by decide) (by decide)⟩

/-! ### Claim C6 — shared-address semantics (confirmed) -/

/-- C6: an allocation of any type other than "shared" whose address value
already exists as a target address is never created (and, whenever its
device name is present, is skipped as a duplicate); a "shared" allocation
is created regardless of the duplicate check — when the owning device has an
interface matching the allocation's interface name and the create call
succeeds, the address is created on that interface with the "vrrp" role. -/
theorem C6_theorem :
    (∀ (env : AllocEnv) (existing : List (Nat × Option Nat)) (alloc : AllocationRow),
       alloc.type ≠ "shared" → ipMatches existing alloc.ip = true →
       isCreatedOutcome (processAllocation env existing alloc) = false ∧
       (alloc.device_name ≠ "" →
         processAllocation env existing alloc = .skippedExisting)) ∧
    (∀ (env : AllocEnv) (existing : List (Nat × Option Nat)) (alloc : AllocationRow)
       (ifEntry : String × Nat),
       alloc.type = "shared" → alloc.device_name ≠ "" →
       env.interfaces.find? (fun p => p.1 == allocInterfaceName env alloc) = some ifEntry →
       env.createIpOk = true →
       processAllocation env existing alloc =
         .createdOnExisting ifEntry.2 (some "vrrp")) := by
  constructor
  · intro env existing alloc htype hmatch
    by_cases hdev : alloc.device_name = ""
    · have hnd : processAllocation env existing alloc = .skippedNoDevice := by
        unfold processAllocation
        exact if_pos hdev
      exact ⟨by rw [hnd]; rfl, fun hne => absurd hdev hne⟩
    · have hcond : ipMatches existing alloc.ip = true ∧ alloc.type ≠ "shared" :=
        ⟨hmatch, htype⟩
      have hskip : processAllocation env existing alloc = .skippedExisting := by
        unfold processAllocation
        rw [if_neg hdev]
        exact if_pos hcond
      exact ⟨by rw [hskip]; rfl, fun _ => hskip⟩
  · intro env existing alloc ifEntry htype hdev hfind hok
    have hcond : ¬ (ipMatches existing alloc.ip = true ∧ alloc.type ≠ "shared") := by
      intro h
      exact h.2 htype
    unfold processAllocation
    rw [if_neg hdev]
    refine (if_neg hcond).trans ?_
    simp [htype, hfind, hok]

/-- C6 witness: a concrete shared allocation whose address already exists is
created with the vrrp role on the matching interface; a concrete regular
allocation with the same existing address is skipped. -/
theorem C6_witness :
    processAllocation ⟨[("eth0", 55)], some 3, "r", true, true⟩ [(9, none)]
        ⟨1, 9, "eth0", "shared", 4, "dev"⟩ =
      .createdOnExisting 55 (some "vrrp") ∧
    processAllocation ⟨[("eth0", 55)], some 3, "r", true, true⟩ [(9, none)]
        ⟨1, 9, "eth0", "regular", 4, "dev"⟩ = .skippedExisting :=
  ⟨C6_theorem.2 ⟨[("eth0", 55)], some 3, "r", true, true⟩ [(9, none)]
      ⟨1, 9, "eth0", "shared", 4, "dev"⟩ ("eth0", 55)
      (by decide) (by decide) (by decide) (by decide),
   (C6_theorem.1 ⟨[("eth0", 55)], some 3, "r", true, true⟩ [(9, none)]
      ⟨1, 9, "eth0", "regular", 4, "dev"⟩ (by decide) (by decide)).2 (by decide)⟩

/-! ### Claim C3 — gap analysis on 10.0.0.0/24 with children
10.0.0.0/26 and 10.0.0.192/26 (corrected)

Addresses: 10.0.0.0 = 167772160, 10.0.0.64 = 167772224,
10.0.0.127 = 167772287, 10.0.0.191 = 167772351, 10.0.0.192 = 167772352. -/

/-- C3 counterexample: on exactly the claimed input the engine identifies
ONE gap between the consecutive children, the interval
10.0.0.64–10.0.0.191 (= 167772224–167772351): the space up to the next
child 10.0.0.192/26.  The claimed interval 10.0.0.64–10.0.0.127 is not the
identified gap. -/
theorem C3_counterexample :
    available_gaps 32 31 v4Sizes
        [⟨167772160, 24⟩, ⟨167772160, 26⟩, ⟨167772352, 26⟩] =
      [(⟨167772160, 24⟩, [(167772224, 167772351)])] ∧
    ((167772224, 167772287) : Nat × Nat) ∉ [((167772224, 167772351) : Nat × Nat)] := by
  refine ⟨by decide, by decide⟩

/-- C3 (amended): the engine identifies the gap 10.0.0.64–10.0.0.191
between the consecutive children 10.0.0.0/26 and 10.0.0.192/26 of parent
10.0.0.0/24, and every candidate available subnet it creates lies within
that gap and overlaps no existing child prefix — vacuously so on this exact
input: the gap start 10.0.0.64 is not aligned to the parent's /24 length,
the strict `ip_network((prev_end, 24))` construction raises, and the engine
creates zero candidate subnets here. -/
theorem C3_theorem :
    available_gaps 32 31 v4Sizes
        [⟨167772160, 24⟩, ⟨167772160, 26⟩, ⟨167772352, 26⟩] =
      [(⟨167772160, 24⟩, [(167772224, 167772351)])] ∧
    create_available_subnets 32 31 v4Sizes
        [⟨167772160, 24⟩, ⟨167772160, 26⟩, ⟨167772352, 26⟩] = [] ∧
    ∀ s ∈ create_available_subnets 32 31 v4Sizes
        [⟨167772160, 24⟩, ⟨167772160, 26⟩, ⟨167772352, 26⟩],
      (167772224 ≤ s.addr ∧ pfxEnd 32 s - 1 ≤ 167772351) ∧
      ∀ c ∈ [(⟨167772160, 26⟩ : Pfx), ⟨167772352, 26⟩],
        pfxEnd 32 s ≤ c.addr ∨ pfxEnd 32 c ≤ s.addr := by
  refine ⟨by decide, by decide, by decide⟩

/-! ### Claim C4 — gap subdivision sizes (corrected) -/

theorem mem_firstTwoSubnets {width base l : Nat} {s : Pfx}
    (h : s ∈ firstTwoSubnets width base l) : s.len = l ∧ base ≤ s.addr := by
  simp only [firstTwoSubnets, List.mem_cons, List.mem_singleton] at h
  rcases h with rfl | h
  · exact ⟨rfl, Nat.le_refl _⟩
  · rcases h with rfl | h
    · exact ⟨rfl, Nat.le_add_right _ _⟩
    · cases h

theorem mem_midGapSubnets {width : Nat} {sizes : List Nat} {base plen start : Nat}
    {s : Pfx} (h : s ∈ midGapSubnets width sizes base plen start) :
    s.len ∈ sizes ∧ plen < s.len ∧ base ≤ s.addr ∧
      s.addr + 2 ^ (width - s.len) - 1 < start := by
  unfold midGapSubnets at h
  split_ifs at h with halign
  · simp only [List.mem_flatMap, List.mem_filter] at h
    obtain ⟨l, hl, hmem, hcond⟩ := h
    obtain ⟨hlen, haddr⟩ := mem_firstTwoSubnets hmem
    subst hlen
    simp only [Bool.and_eq_true, decide_eq_true_eq] at hcond
    exact ⟨hl.1, by simpa using hl.2, haddr, hcond.2⟩
  · cases h

theorem mem_endGapSubnets {width : Nat} {sizes : List Nat} {base plen : Nat}
    {s : Pfx} (h : s ∈ endGapSubnets width sizes base plen) :
    s.len ∈ sizes ∧ plen < s.len ∧ base ≤ s.addr := by
  unfold endGapSubnets at h
  split_ifs at h with halign
  · simp only [List.mem_flatMap, List.mem_filter] at h
    obtain ⟨l, hl, hmem⟩ := h
    obtain ⟨hlen, haddr⟩ := mem_firstTwoSubnets hmem
    subst hlen
    exact ⟨hl.1, by simpa using hl.2, haddr⟩
  · cases h

/-- At most two subnets of each length come out of a flatMap over distinct
lengths when each length's block has at most two subnets, all of that
length. -/
theorem count_len_flatMap_le_two :
    ∀ (sizes : List Nat) (f : Nat → List Pfx), sizes.Nodup →
      (∀ l s, s ∈ f l → s.len = l) → (∀ l, (f l).length ≤ 2) →
      ∀ l, ((sizes.flatMap f).filter (fun s => s.len == l)).length ≤ 2 := by
  intro sizes
  induction sizes with
  | nil => intro f _ _ _ l; simp
  | cons a rest ih =>
    intro f hnd hlen hle l
    rw [List.flatMap_cons, List.filter_append, List.length_append]
    by_cases hal : a = l
    · subst hal
      have h1 : (List.filter (fun s => s.len == a) (f a)).length ≤ 2 :=
        Nat.le_trans (List.length_filter_le _ _) (hle a)
      have h2 : (List.filter (fun s => s.len == a) (rest.flatMap f)).length = 0 := by
        rw [List.length_eq_zero]
        rw [List.filter_eq_nil_iff]
        intro s hs
        simp only [List.mem_flatMap] at hs
        obtain ⟨l', hl', hs'⟩ := hs
        have : s.len = l' := hlen l' s hs'
        have hne : l' ≠ a := by
          intro he
          subst he
          exact (List.nodup_cons.mp hnd).1 hl'
        simp [this, hne]
      omega
    · have h1 : (List.filter (fun s => s.len == l) (f a)).length = 0 := by
        rw [List.length_eq_zero, List.filter_eq_nil_iff]
        intro s hs
        have : s.len = a := hlen a s hs
        simp [this, hal]
      have h2 := ih f (List.nodup_cons.mp hnd).2 hlen hle l
      omega

theorem count_midGapSubnets_le_two {width : Nat} {sizes : List Nat}
    {base plen start : Nat} (hnd : sizes.Nodup) (l : Nat) :
    ((midGapSubnets width sizes base plen start).filter
      (fun s => s.len == l)).length ≤ 2 := by
  unfold midGapSubnets
  split_ifs with halign
  · refine count_len_flatMap_le_two _ _ (hnd.filter _) ?_ ?_ l
    · intro l' s hs
      exact (mem_firstTwoSubnets (List.mem_of_mem_filter hs)).1
    · intro l'
      exact Nat.le_trans (List.length_filter_le _ _) (by simp [firstTwoSubnets])
  · simp

theorem count_endGapSubnets_le_two {width : Nat} {sizes : List Nat}
    {base plen : Nat} (hnd : sizes.Nodup) (l : Nat) :
    ((endGapSubnets width sizes base plen).filter
      (fun s => s.len == l)).length ≤ 2 := by
  unfold endGapSubnets
  split_ifs with halign
  · refine count_len_flatMap_le_two _ _ (hnd.filter _) ?_ ?_ l
    · intro l' s hs
      exact (mem_firstTwoSubnets hs).1
    · intro l'
      simp [firstTwoSubnets]
  · simp

theorem mem_insertByAddr {x y : Pfx} :
    ∀ {l : List Pfx}, x ∈ insertByAddr y l → x = y ∨ x ∈ l := by
  intro l
  induction l with
  | nil => intro h; simpa [insertByAddr] using h
  | cons a rest ih =>
    intro h
    rw [insertByAddr] at h
    split_ifs at h with hle
    · rcases List.mem_cons.mp h with rfl | h2
      · exact Or.inr (List.mem_cons_self _ _)
      · rcases ih h2 with h3 | h3
        · exact Or.inl h3
        · exact Or.inr (List.mem_cons_of_mem _ h3)
    · rcases List.mem_cons.mp h with rfl | h2
      · exact Or.inl rfl
      · exact Or.inr h2

theorem mem_sortByAddr {x : Pfx} {l : List Pfx} (h : x ∈ sortByAddr l) : x ∈ l := by
  unfold sortByAddr at h
  suffices haux : ∀ (l : List Pfx) (acc : List Pfx),
      x ∈ l.foldl (fun acc x => insertByAddr x acc) acc → x ∈ acc ∨ x ∈ l by
    rcases haux l [] h with h2 | h2
    · cases h2
    · exact h2
  intro l'
  induction l' with
  | nil => intro acc h2; exact Or.inl h2
  | cons a rest ih =>
    intro acc h2
    rcases ih (insertByAddr a acc) h2 with h3 | h3
    · rcases mem_insertByAddr h3 with rfl | h4
      · exact Or.inr (List.mem_cons_self _ _)
      · exact Or.inl h4
    · exact Or.inr (List.mem_cons_of_mem _ h3)

theorem length_insertByAddr (y : Pfx) :
    ∀ (l : List Pfx), (insertByAddr y l).length = l.length + 1 := by
  intro l
  induction l with
  | nil => rfl
  | cons a rest ih =>
    rw [insertByAddr]
    split_ifs
    · simp [ih]
    · simp

theorem length_sortByAddr (l : List Pfx) : (sortByAddr l).length = l.length := by
  unfold sortByAddr
  suffices haux : ∀ (l acc : List Pfx),
      (l.foldl (fun acc x => insertByAddr x acc) acc).length = acc.length + l.length by
    simpa using haux l []
  intro l'
  induction l' with
  | nil => intro acc; simp
  | cons a rest ih =>
    intro acc
    rw [List.foldl_cons, ih, length_insertByAddr]
    simp only [List.length_cons]
    omega

/-- The walk's final `prev_end` is the end of the last child processed. -/
theorem walkChildren_final {width : Nat} {sizes : List Nat} {plen : Nat} :
    ∀ (cs : List Pfx) (prev : Nat), cs ≠ [] →
      ∃ c ∈ cs, (walkChildren width sizes plen cs prev).2.2 = pfxEnd width c := by
  intro cs
  induction cs with
  | nil => intro prev h; exact absurd rfl h
  | cons a rest ih =>
    intro prev _
    by_cases hrest : rest = []
    · subst hrest
      exact ⟨a, List.mem_cons_self _ _, rfl⟩
    · obtain ⟨c, hc, he⟩ := ih (pfxEnd width a) hrest
      refine ⟨c, List.mem_cons_of_mem _ hc, ?_⟩
      rw [walkChildren]
      exact he

/-- In the pipeline, the trailing-gap branch never creates a subnet: after
at least one child the gap start lies strictly inside the parent's
(aligned) block and is therefore never aligned to the parent's mask, so the
strict network construction always raises. -/
theorem processGroup_end_empty (width : Nat) (sizes : List Nat) (parent : Pfx)
    (children : List Pfx)
    (halign : parent.addr % 2 ^ (width - parent.len) = 0)
    (hne : children ≠ [])
    (hsub : ∀ c ∈ children, parent.addr ≤ c.addr) :
    (processGroup width sizes parent children).2
      = (walkChildren width sizes parent.len (sortByAddr children) parent.addr).2.1 := by
  unfold processGroup
  set w := walkChildren width sizes parent.len (sortByAddr children) parent.addr with hw
  by_cases hlt : w.2.2 < pfxEnd width parent - 1
  · rw [if_pos hlt]
    have hsorted_ne : sortByAddr children ≠ [] := by
      intro h
      have := length_sortByAddr children
      rw [h] at this
      cases children with
      | nil => exact hne rfl
      | cons a l => simp at this
    obtain ⟨c, hc, he⟩ := walkChildren_final (sortByAddr children) parent.addr hsorted_ne
    have hcmem : c ∈ children := mem_sortByAddr hc
    have hS : 0 < 2 ^ (width - parent.len) := Nat.pos_pow_of_pos _ (by omega)
    have hprev_gt : parent.addr < w.2.2 := by
      rw [← hw] at he
      rw [he]
      have : 0 < pfxSize width c := Nat.pos_pow_of_pos _ (by omega)
      have := hsub c hcmem
      unfold pfxEnd
      omega
    have hprev_lt : w.2.2 < parent.addr + 2 ^ (width - parent.len) := by
      unfold pfxEnd pfxSize at hlt
      omega
    have hnotalign : ¬ (w.2.2 % 2 ^ (width - parent.len) = 0) := by
      intro h
      have hd1 : 2 ^ (width - parent.len) ∣ parent.addr := Nat.dvd_of_mod_eq_zero halign
      have hd2 : 2 ^ (width - parent.len) ∣ w.2.2 := Nat.dvd_of_mod_eq_zero h
      have hd3 : 2 ^ (width - parent.len) ∣ (w.2.2 - parent.addr) :=
        Nat.dvd_sub' hd2 hd1
      have hpos : 0 < w.2.2 - parent.addr := by omega
      have := Nat.le_of_dvd hpos hd3
      omega
    have hend : endGapSubnets width sizes w.2.2 parent.len = [] := by
      unfold endGapSubnets
      rw [if_neg hnotalign]
    rw [hend, List.append_nil]
  · rw [if_neg hlt]

/-! ### Claim C4 — gap subdivision (corrected) -/

/-- C4 counterexample: with parent 10.0.0.0/24 and single child
10.0.0.64/26 the engine creates the available subnet 10.0.0.0/29 — a /29,
outside the claimed candidate set /24../28 (the code's IPv4 candidate list
is [24, 25, 26, 27, 28, 29]). -/
theorem C4_counterexample :
    (⟨167772160, 29⟩ : Pfx) ∈ create_available_subnets 32 31 v4Sizes
        [⟨167772160, 24⟩, ⟨167772224, 26⟩] ∧
    (29 : Nat) ∉ [24, 25, 26, 27, 28] := by
  refine ⟨by decide, by decide⟩

/-- C4 (amended): for every gap found between consecutive allocated
prefixes, the engine subdivides using exactly the candidate lengths
/24,/25,/26,/27,/28,/29 for IPv4 and /64,/80,/96,/112 for IPv6 (only those
longer than the parent's mask), creating at most the first two subnets of
each candidate length, each lying inside the gap (at or after the gap start
and wholly below the next child); and the trailing gap between the last
child and the end of the parent never yields a subnet, because its start is
strictly inside the parent's aligned block so the strict network
construction always fails. -/
theorem C4_theorem :
    (∀ (base plen start : Nat) (s : Pfx),
       s ∈ midGapSubnets 32 v4Sizes base plen start →
       s.len ∈ [24, 25, 26, 27, 28, 29] ∧ plen < s.len ∧ base ≤ s.addr ∧
       s.addr + 2 ^ (32 - s.len) - 1 < start) ∧
    (∀ (base plen start : Nat) (s : Pfx),
       s ∈ midGapSubnets 128 v6Sizes base plen start →
       s.len ∈ [64, 80, 96, 112] ∧ plen < s.len ∧ base ≤ s.addr ∧
       s.addr + 2 ^ (128 - s.len) - 1 < start) ∧
    (∀ (base plen start l : Nat),
       ((midGapSubnets 32 v4Sizes base plen start).filter
         (fun s => s.len == l)).length ≤ 2 ∧
       ((midGapSubnets 128 v6Sizes base plen start).filter
         (fun s => s.len == l)).length ≤ 2) ∧
    (∀ (base plen l : Nat),
       ((endGapSubnets 32 v4Sizes base plen).filter
         (fun s => s.len == l)).length ≤ 2 ∧
       ((endGapSubnets 128 v6Sizes base plen).filter
         (fun s => s.len == l)).length ≤ 2) ∧
    (∀ (width : Nat) (sizes : List Nat) (parent : Pfx) (children : List Pfx),
       parent.addr % 2 ^ (width - parent.len) = 0 → children ≠ [] →
       (∀ c ∈ children, parent.addr ≤ c.addr) →
       (processGroup width sizes parent children).2
         = (walkChildren width sizes parent.len (sortByAddr children) parent.addr).2.1) := by
  refine ⟨?_, ?_, ?_, ?_, processGroup_end_empty⟩
  · intro base plen start s h
    exact mem_midGapSubnets h
  · intro base plen start s h
    exact mem_midGapSubnets h
  · intro base plen start l
    exact ⟨count_midGapSubnets_le_two (by decide) l, count_midGapSubnets_le_two (by decide) l⟩
  · intro base plen l
    exact ⟨count_endGapSubnets_le_two (by decide) l, count_endGapSubnets_le_two (by decide) l⟩

/-- C4 witness: the /29 candidate created in the gap of the counterexample
input indeed has a candidate length, exceeds the parent mask and sits
entirely inside the gap; and on the counterexample group the trailing gap
contributes nothing. -/
theorem C4_witness :
    ((29 : Nat) ∈ [24, 25, 26, 27, 28, 29] ∧ (24 : Nat) < 29 ∧
      (167772160 : Nat) ≤ 167772160 ∧
      (167772160 : Nat) + 2 ^ (32 - 29) - 1 < 167772224) ∧
    (processGroup 32 v4Sizes ⟨167772160, 24⟩ [⟨167772224, 26⟩]).2
      = (walkChildren 32 v4Sizes 24 (sortByAddr [⟨167772224, 26⟩]) 167772160).2.1 := by
  constructor
  · have h := C4_theorem.1 167772160 24 167772224 ⟨167772160, 29⟩ (by decide)
    exact h
  · exact C4_theorem.2.2.2.2 32 v4Sizes ⟨167772160, 24⟩ [⟨167772224, 26⟩]
      (by decide) (by decide) (by decide)

/-! ### Helper lemmas for the device name-collision tie-break -/

theorem counterName_ne_base {base sep : String} (k : Nat)
    (hsep : 1 ≤ sep.data.length) : counterName base sep k ≠ base := by
  intro h
  have hd : (counterName base sep k).data = base.data := by rw [h]
  have e1 : (counterName base sep k).data
      = base.data ++ sep.data ++ (natStr k).data := rfl
  rw [e1] at hd
  have hlen := congrArg List.length hd
  simp only [List.length_append] at hlen
  have := natChars_length_pos k
  have h2 : (natStr k).data.length = (natChars k).length := rfl
  omega

theorem uniquifyName_of_not_mem {base sep : String} {taken : List String}
    (h : base ∉ taken) : uniquifyName base sep taken = base := by
  unfold uniquifyName
  rw [if_neg h]

theorem uniquifyName_first {base sep : String} {taken : List String}
    (hb : base ∈ taken) (h1 : counterName base sep 1 ∉ taken) :
    uniquifyName base sep taken = counterName base sep 1 := by
  unfold uniquifyName
  rw [if_pos hb, searchFrom, if_pos (by simpa using h1)]

theorem matchesLocation_mkDevRec {t t' : LocTuple} {nm : String} {i : Nat} :
    matchesLocation t (mkDevRec nm i t') = true ↔ t = t' := by
  cases t
  cases t'
  simp [matchesLocation, mkDevRec, LocTuple.mk.injEq, Bool.and_eq_true, and_assoc]

theorem find?_append_of_none {α : Type} {p : α → Bool} {l1 l2 : List α}
    (h : l1.find? p = none) : (l1 ++ l2).find? p = l2.find? p := by
  induction l1 with
  | nil => simp
  | cons a rest ih =>
    rw [List.find?_cons] at h
    rw [List.cons_append, List.find?_cons]
    cases hp : p a with
    | true => rw [hp] at h; cases h
    | false =>
      rw [hp] at h
      simp only []
      exact ih h

/-- The create path of `create_device_at_location`: no location match,
create call succeeds. -/
theorem cdal_create_ok (st : DevState) (name : String) (t : LocTuple)
    (a : Option String)
    (hfind : st.global_devices.find? (matchesLocation t) = none) :
    (create_device_at_location st true name t a).1
        = some (uniquifyName name "." st.global_names, st.nextId) ∧
    (create_device_at_location st true name t a).2.global_devices
        = st.global_devices ++ [mkDevRec (uniquifyName name "." st.global_names) st.nextId t] ∧
    (create_device_at_location st true name t a).2.global_names
        = insertIfAbsent st.global_names (uniquifyName name "." st.global_names) ∧
    (create_device_at_location st true name t a).2.nextId = st.nextId + 1 := by
  unfold create_device_at_location
  rw [hfind]
  exact ⟨rfl, rfl, rfl, rfl⟩

/-- The merge path of `create_device_at_location`: a device at the same
location tuple exists; its name and id are returned and nothing changes. -/
theorem cdal_match (st : DevState) (ok : Bool) (name : String) (t : LocTuple)
    (a : Option String) (d : DeviceRec)
    (hfind : st.global_devices.find? (matchesLocation t) = some d) :
    create_device_at_location st ok name t a = (some (d.name, d.id), st) := by
  unfold create_device_at_location
  rw [hfind]

/-! ### Association-list lemmas -/

theorem aget_aupdate_self {α β : Type} [BEq α] [LawfulBEq α]
    (m : List (α × β)) (k : α) (d : β) (f : β → β) :
    aget (aupdate m k d f) k d = f (aget m k d) := by
  induction m with
  | nil => simp [aupdate, aget]
  | cons e rest ih =>
    obtain ⟨a, b⟩ := e
    by_cases hak : a == k
    · simp [aupdate, aget, hak]
    · simp only [aupdate, aget, hak, Bool.false_eq_true, if_false, ih]

theorem aget_aupdate_ne {α β : Type} [BEq α] [LawfulBEq α]
    (m : List (α × β)) (k k' : α) (d d' : β) (f : β → β) (hne : k ≠ k') :
    aget (aupdate m k d f) k' d' = aget m k' d' := by
  induction m with
  | nil =>
    have : (k == k') = false := beq_eq_false_iff_ne.mpr hne
    simp [aupdate, aget, this]
  | cons e rest ih =>
    obtain ⟨a, b⟩ := e
    by_cases hak : a == k
    · have ha : a = k := eq_of_beq hak
      subst ha
      have : (a == k') = false := beq_eq_false_iff_ne.mpr hne
      simp [aupdate, aget, this]
    · simp only [aupdate, aget, hak, Bool.false_eq_true, if_false, ih]

theorem hasKey_aput_self {α β : Type} [BEq α] [LawfulBEq α]
    (m : List (α × β)) (k : α) (v : β) : hasKey (aput m k v) k = true := by
  induction m with
  | nil => simp [aput, hasKey]
  | cons e rest ih =>
    obtain ⟨a, b⟩ := e
    by_cases hak : a == k
    · simp [aput, hasKey, hak]
    · simp [aput, hasKey, hak, ih]

theorem hasKey_aput_mono {α β : Type} [BEq α] (m : List (α × β)) (k k' : α)
    (v : β) (h : hasKey m k = true) : hasKey (aput m k' v) k = true := by
  induction m with
  | nil => simp [hasKey] at h
  | cons e rest ih =>
    obtain ⟨a, b⟩ := e
    simp only [hasKey, Bool.or_eq_true] at h
    by_cases hak : a == k'
    · rcases h with h | h
      · simp [aput, hasKey, hak, h]
      · simp [aput, hasKey, hak, h]
    · rcases h with h | h
      · simp [aput, hasKey, hak, h]
      · simp [aput, hasKey, hak, ih h]

theorem mem_insertIfAbsent_iff {l : List String} {s x : String} :
    x ∈ insertIfAbsent l s ↔ x ∈ l ∨ x = s := by
  unfold insertIfAbsent
  split_ifs with h
  · constructor
    · exact Or.inl
    · intro hx
      rcases hx with hx | rfl
      · exact hx
      · exact h
  · simp

theorem mem_insertIfAbsent_of_mem {l : List String} {s x : String}
    (h : x ∈ l) : x ∈ insertIfAbsent l s :=
  mem_insertIfAbsent_iff.mpr (Or.inl h)

theorem self_mem_insertIfAbsent (l : List String) (s : String) :
    s ∈ insertIfAbsent l s :=
  mem_insertIfAbsent_iff.mpr (Or.inr rfl)

/-! ### Claim C9 — per-record error containment (corrected) -/

/-- Each port-loop iteration visits its port exactly once, whatever the
create-call outcomes. -/
theorem create_interfaces_port_visited (env : Nat → Option Nat) (d : DevEntry)
    (st : IfaceState) (p : PortRow) :
    (create_interfaces_port env d st p).visited = st.visited ++ [p.id] := by
  unfold create_interfaces_port
  by_cases h : p.name = ""
  · simp [h]
  · simp only [h, if_neg, if_false]
    by_cases h2 : change_interface_name p.name d.objtype_id
        ∈ aget st.namesFor d.netbox_id []
    · simp [h2]
    · simp only [h2, if_false]
      cases henv : env st.callIdx <;> simp [henv, h2]

theorem ports_foldl_visited (env : Nat → Option Nat) (d : DevEntry) :
    ∀ (ps : List PortRow) (st : IfaceState),
      ((ps.foldl (create_interfaces_port env d) st)).visited
        = st.visited ++ ps.map (fun p => p.id) := by
  intro ps
  induction ps with
  | nil => intro st; simp
  | cons p rest ih =>
    intro st
    rw [List.foldl_cons, ih, create_interfaces_port_visited]
    simp

/-- The interface stage iterates over every port of every tracked device —
it never aborts, regardless of which create calls fail: the visited trace
equals the full port list. -/
theorem create_interfaces_run_visited (recs : List (Nat × String × Nat))
    (devices : List DevEntry) (ports : Nat → List PortRow)
    (env : Nat → Option Nat) :
    (create_interfaces_run recs devices ports env).visited
      = devices.flatMap (fun d => (ports d.racktables_id).map (fun p => p.id)) := by
  unfold create_interfaces_run
  have hbuild : ∀ (rs : List (Nat × String × Nat)),
      (buildInterfaceMaps rs).visited = [] := by
    intro rs
    unfold buildInterfaceMaps
    suffices haux : ∀ (rs : List (Nat × String × Nat)) (st : IfaceState),
        (rs.foldl (fun st r =>
          { st with
            namesFor := aupdate st.namesFor r.1 [] (fun s => insertIfAbsent s r.2.1),
            idsFor := aupdate st.idsFor r.1 [] (fun m => aput m r.2.1 r.2.2) }) st).visited
          = st.visited by
      simpa using haux rs ⟨[], [], [], 0, 0, []⟩
    intro rs'
    induction rs' with
    | nil => intro st; rfl
    | cons r rest ih => intro st; rw [List.foldl_cons, ih]
  suffices haux : ∀ (ds : List DevEntry) (st : IfaceState),
      ((ds.foldl (fun st d => (ports d.racktables_id).foldl
          (create_interfaces_port env d) st) st)).visited
        = st.visited ++ ds.flatMap (fun d => (ports d.racktables_id).map (fun p => p.id)) by
    rw [haux devices _, hbuild]
    simp
  intro ds
  induction ds with
  | nil => intro st; simp
  | cons d rest ih =>
    intro st
    rw [List.foldl_cons, ih, ports_foldl_visited]
    simp

/-- A rack record whose role/manufacturer/type resolve-creates all succeed
is fully processed, regardless of the `create_device` outcome (that call is
wrapped inside `create_device_at_location`). -/
theorem create_devices_in_rack_step_ok (env : RackEnv) (site rack : String)
    (st : RackState) (r : RackRecord)
    (hrole : ∀ s, env.roleOk s = true) (hmanu : ∀ s, env.manuOk s = true)
    (htype : ∀ s, env.typeOk s = true) :
    ∃ st', create_devices_in_rack_step env site rack st r = .ok st' ∧
      st'.processed = st.processed + 1 := by
  simp only [create_devices_in_rack_step, hrole, hmanu, htype,
    Bool.true_eq_false, and_false, if_false]
  refine ⟨_, rfl, ?_⟩
  simp only [apply_ite RackState.processed]
  split_ifs <;> rfl

theorem create_devices_in_rack_ok (env : RackEnv) (site rack : String)
    (hrole : ∀ s, env.roleOk s = true) (hmanu : ∀ s, env.manuOk s = true)
    (htype : ∀ s, env.typeOk s = true) :
    ∀ (records : List RackRecord) (st0 : RackState),
      ∃ st', create_devices_in_rack env site rack st0 records = .ok st' ∧
        st'.processed = st0.processed + records.length := by
  intro records
  induction records with
  | nil => intro st0; exact ⟨st0, rfl, by simp⟩
  | cons r rest ih =>
    intro st0
    obtain ⟨st1, hst1, hp1⟩ :=
      create_devices_in_rack_step_ok env site rack st0 r hrole hmanu htype
    obtain ⟨st2, hst2, hp2⟩ := ih st1
    refine ⟨st2, ?_, ?_⟩
    · unfold create_devices_in_rack at hst2 ⊢
      rw [List.foldlM_cons, hst1]
      simpa using hst2
    · rw [hp2, hp1]
      simp only [List.length_cons]
      omega

/-- C9 counterexample: in `create_devices_in_rack` the per-record
`create_device_role` resolve call is issued OUTSIDE any try/except (lines
279–282), so its failure propagates out of the loop and aborts the whole
stage: with the role-create failing, a two-record rack errors out instead of
logging and continuing to the second record. -/
theorem C9_counterexample :
    create_devices_in_rack
        ⟨(fun _ => false), (fun _ => true), (fun _ => true), (fun _ => true)⟩
        "S" "R" ⟨[], [], [], ⟨[], [], [], 0⟩, [], 0⟩
        [⟨1, 4, "a", none, "front", 1, "role1", "m1", "mod1"⟩,
         ⟨2, 4, "b", none, "front", 2, "role1", "m1", "mod1"⟩]
      = .error "create_device_role" := rfl

/-- C9 (amended): the per-record DEVICE and INTERFACE create calls are
wrapped in per-record handlers, so their failures are contained — the
interface stage visits every port of every device whatever the create
outcomes, and the racked-device stage processes every record whenever the
(unwrapped) role/manufacturer/device-type resolve calls succeed, regardless
of `create_device` outcomes; but a failure of those resolve calls, which
are issued outside any per-record handler, aborts the device stage. -/
theorem C9_theorem :
    (∀ (recs : List (Nat × String × Nat)) (devices : List DevEntry)
       (ports : Nat → List PortRow) (env : Nat → Option Nat),
       (create_interfaces_run recs devices ports env).visited
         = devices.flatMap (fun d => (ports d.racktables_id).map (fun p => p.id))) ∧
    (∀ (env : RackEnv) (site rack : String) (records : List RackRecord)
       (st0 : RackState),
       (∀ s, env.roleOk s = true) → (∀ s, env.manuOk s = true) →
       (∀ s, env.typeOk s = true) →
       ∃ st', create_devices_in_rack env site rack st0 records = .ok st' ∧
         st'.processed = st0.processed + records.length) :=
  ⟨create_interfaces_run_visited,
   fun env site rack records st0 hrole hmanu htype =>
     create_devices_in_rack_ok env site rack hrole hmanu htype records st0⟩

/-- C9 witness: with role/manufacturer/type creates succeeding but every
device create failing, a two-record rack still processes both records. -/
theorem C9_witness :
    ∃ st', create_devices_in_rack
        ⟨(fun _ => true), (fun _ => true), (fun _ => true), (fun _ => false)⟩
        "S" "R" ⟨[], [], [], ⟨[], [], [], 0⟩, [], 0⟩
        [⟨1, 4, "a", none, "front", 1, "role1", "m1", "mod1"⟩,
         ⟨2, 4, "b", none, "front", 2, "role1", "m1", "mod1"⟩]
      = .ok st' ∧ st'.processed = 0 + 2 :=
  C9_theorem.2 ⟨(fun _ => true), (fun _ => true), (fun _ => true), (fun _ => false)⟩
    "S" "R"
    [⟨1, 4, "a", none, "front", 1, "role1", "m1", "mod1"⟩,
     ⟨2, 4, "b", none, "front", 2, "role1", "m1", "mod1"⟩]
    ⟨[], [], [], ⟨[], [], [], 0⟩, [], 0⟩
    (fun _ => rfl) (fun _ => rfl) (fun _ => rfl)

/-! ### Claim C10 — interface-stage cache entries (corrected) -/

theorem create_interfaces_port_conn_mono (env : Nat → Option Nat) (d : DevEntry)
    (st : IfaceState) (p : PortRow) (k : Nat)
    (h : hasKey st.connection_ids k = true) :
    hasKey (create_interfaces_port env d st p).connection_ids k = true := by
  unfold create_interfaces_port
  dsimp only
  split_ifs with h1 h2
  · exact h
  · exact hasKey_aput_mono _ _ _ _ h
  · cases henv : env st.callIdx with
    | some newId => exact hasKey_aput_mono _ _ _ _ h
    | none => exact h

theorem create_interfaces_port_names_mono (env : Nat → Option Nat) (d : DevEntry)
    (st : IfaceState) (p : PortRow) (dev : Nat) (x : String)
    (h : x ∈ aget st.namesFor dev []) :
    x ∈ aget (create_interfaces_port env d st p).namesFor dev [] := by
  unfold create_interfaces_port
  dsimp only
  split_ifs with h1 h2
  · exact h
  · exact h
  · cases henv : env st.callIdx with
    | some newId =>
      dsimp only
      by_cases hdev : d.netbox_id = dev
      · subst hdev
        rw [aget_aupdate_self]
        exact mem_insertIfAbsent_of_mem h
      · rw [aget_aupdate_ne _ _ _ _ _ _ hdev]
        exact h
    | none => exact h

/-- The skip branch of the port loop records the
racktables-port-id → netbox-interface-id link before skipping creation. -/
theorem create_interfaces_port_skip_records (env : Nat → Option Nat)
    (d : DevEntry) (st : IfaceState) (p : PortRow) (hname : p.name ≠ "")
    (hpresent : change_interface_name p.name d.objtype_id
      ∈ aget st.namesFor d.netbox_id []) :
    hasKey (create_interfaces_port env d st p).connection_ids p.id = true := by
  unfold create_interfaces_port
  dsimp only
  rw [if_neg hname, if_pos hpresent]
  exact hasKey_aput_self _ _ _

theorem create_interfaces_port_success_records (env : Nat → Option Nat)
    (d : DevEntry) (st : IfaceState) (p : PortRow) (hname : p.name ≠ "")
    (hsucc : (env st.callIdx).isSome = true) :
    hasKey (create_interfaces_port env d st p).connection_ids p.id = true := by
  unfold create_interfaces_port
  dsimp only
  rw [if_neg hname]
  by_cases hpres : change_interface_name p.name d.objtype_id
      ∈ aget st.namesFor d.netbox_id []
  · rw [if_pos hpres]
    exact hasKey_aput_self _ _ _
  · rw [if_neg hpres]
    cases henv : env st.callIdx with
    | some newId => exact hasKey_aput_self _ _ _
    | none => rw [henv] at hsucc; simp at hsucc

theorem ports_foldl_conn_mono (env : Nat → Option Nat) (d : DevEntry) :
    ∀ (ps : List PortRow) (st : IfaceState) (k : Nat),
      hasKey st.connection_ids k = true →
      hasKey ((ps.foldl (create_interfaces_port env d) st)).connection_ids k = true := by
  intro ps
  induction ps with
  | nil => intro st k h; exact h
  | cons q rest ih =>
    intro st k h
    rw [List.foldl_cons]
    exact ih _ k (create_interfaces_port_conn_mono env d st q k h)

theorem ports_foldl_names_mono (env : Nat → Option Nat) (d : DevEntry) :
    ∀ (ps : List PortRow) (st : IfaceState) (dev : Nat) (x : String),
      x ∈ aget st.namesFor dev [] →
      x ∈ aget ((ps.foldl (create_interfaces_port env d) st)).namesFor dev [] := by
  intro ps
  induction ps with
  | nil => intro st dev x h; exact h
  | cons q rest ih =>
    intro st dev x h
    rw [List.foldl_cons]
    exact ih _ dev x (create_interfaces_port_names_mono env d st q dev x h)

theorem ports_foldl_success_records (env : Nat → Option Nat) (d : DevEntry)
    (hsucc : ∀ i, (env i).isSome = true) :
    ∀ (ps : List PortRow) (st : IfaceState) (p : PortRow), p ∈ ps → p.name ≠ "" →
      hasKey ((ps.foldl (create_interfaces_port env d) st)).connection_ids p.id = true := by
  intro ps
  induction ps with
  | nil => intro st p hp; cases hp
  | cons q rest ih =>
    intro st p hp hname
    rw [List.foldl_cons]
    rcases List.mem_cons.mp hp with rfl | hp'
    · exact ports_foldl_conn_mono env d rest _ p.id
        (create_interfaces_port_success_records env d st p hname (hsucc _))
    · exact ih _ p hp' hname

theorem devices_foldl_conn_mono (env : Nat → Option Nat) (ports : Nat → List PortRow) :
    ∀ (ds : List DevEntry) (st : IfaceState) (k : Nat),
      hasKey st.connection_ids k = true →
      hasKey ((ds.foldl (fun st d => (ports d.racktables_id).foldl
        (create_interfaces_port env d) st) st)).connection_ids k = true := by
  intro ds
  induction ds with
  | nil => intro st k h; exact h
  | cons d rest ih =>
    intro st k h
    rw [List.foldl_cons]
    exact ih _ k (ports_foldl_conn_mono env d _ st k h)

theorem devices_foldl_names_mono (env : Nat → Option Nat) (ports : Nat → List PortRow) :
    ∀ (ds : List DevEntry) (st : IfaceState) (dev : Nat) (x : String),
      x ∈ aget st.namesFor dev [] →
      x ∈ aget ((ds.foldl (fun st d => (ports d.racktables_id).foldl
        (create_interfaces_port env d) st) st)).namesFor dev [] := by
  intro ds
  induction ds with
  | nil => intro st dev x h; exact h
  | cons d rest ih =>
    intro st dev x h
    rw [List.foldl_cons]
    exact ih _ dev x (ports_foldl_names_mono env d _ st dev x h)

/-- Under the hypothesis that every named port's normalized name is already
present on its device, the port loop of one device neither creates an
interface nor touches the name sets, and still records a cache entry for
every named port. -/
theorem ports_foldl_all_present (env : Nat → Option Nat) (d : DevEntry) :
    ∀ (ps : List PortRow) (st : IfaceState),
      (∀ p ∈ ps, p.name = "" ∨ change_interface_name p.name d.objtype_id
        ∈ aget st.namesFor d.netbox_id []) →
      ((ps.foldl (create_interfaces_port env d) st)).namesFor = st.namesFor ∧
      ((ps.foldl (create_interfaces_port env d) st)).interface_counter
        = st.interface_counter ∧
      ∀ p ∈ ps, p.name ≠ "" →
        hasKey ((ps.foldl (create_interfaces_port env d) st)).connection_ids p.id
          = true := by
  intro ps
  induction ps with
  | nil =>
    intro st hall
    exact ⟨rfl, rfl, fun p hp => absurd hp (List.not_mem_nil p)⟩
  | cons q rest ih =>
    intro st hall
    have hq := hall q (List.mem_cons_self _ _)
    have hstep : (create_interfaces_port env d st q).namesFor = st.namesFor ∧
        (create_interfaces_port env d st q).interface_counter = st.interface_counter ∧
        (q.name ≠ "" →
          hasKey (create_interfaces_port env d st q).connection_ids q.id = true) := by
      by_cases hname : q.name = ""
      · unfold create_interfaces_port
        dsimp only
        rw [if_pos hname]
        exact ⟨rfl, rfl, fun h => absurd hname h⟩
      · have hpres : change_interface_name q.name d.objtype_id
            ∈ aget st.namesFor d.netbox_id [] := hq.resolve_left hname
        unfold create_interfaces_port
        dsimp only
        rw [if_neg hname, if_pos hpres]
        exact ⟨rfl, rfl, fun _ => hasKey_aput_self _ _ _⟩
    obtain ⟨hn1, hc1, hr1⟩ := hstep
    have hall' : ∀ p ∈ rest, p.name = "" ∨ change_interface_name p.name d.objtype_id
        ∈ aget (create_interfaces_port env d st q).namesFor d.netbox_id [] := by
      intro p hp
      rcases hall p (List.mem_cons_of_mem _ hp) with h | h
      · exact Or.inl h
      · right
        rw [hn1]
        exact h
    obtain ⟨hn2, hc2, hr2⟩ := ih (create_interfaces_port env d st q) hall'
    rw [List.foldl_cons]
    refine ⟨by rw [hn2, hn1], by rw [hc2, hc1], ?_⟩
    intro p hp hpname
    rcases List.mem_cons.mp hp with rfl | hp'
    · exact ports_foldl_conn_mono env d rest _ p.id (hr1 hpname)
    · exact hr2 p hp' hpname

theorem devices_foldl_all_present (env : Nat → Option Nat)
    (ports : Nat → List PortRow) :
    ∀ (ds : List DevEntry) (st : IfaceState),
      (∀ d ∈ ds, ∀ p ∈ ports d.racktables_id,
        p.name = "" ∨ change_interface_name p.name d.objtype_id
          ∈ aget st.namesFor d.netbox_id []) →
      ((ds.foldl (fun st d => (ports d.racktables_id).foldl
          (create_interfaces_port env d) st) st)).namesFor = st.namesFor ∧
      ((ds.foldl (fun st d => (ports d.racktables_id).foldl
          (create_interfaces_port env d) st) st)).interface_counter
        = st.interface_counter ∧
      ∀ d ∈ ds, ∀ p ∈ ports d.racktables_id, p.name ≠ "" →
        hasKey ((ds.foldl (fun st d => (ports d.racktables_id).foldl
          (create_interfaces_port env d) st) st)).connection_ids p.id = true := by
  intro ds
  induction ds with
  | nil =>
    intro st _
    exact ⟨rfl, rfl, fun d hd => absurd hd (List.not_mem_nil d)⟩
  | cons d0 rest ih =>
    intro st hall
    obtain ⟨hn1, hc1, hr1⟩ := ports_foldl_all_present env d0 (ports d0.racktables_id) st
      (hall d0 (List.mem_cons_self _ _))
    set st1 := (ports d0.racktables_id).foldl (create_interfaces_port env d0) st with hst1
    have hall2 : ∀ d ∈ rest, ∀ p ∈ ports d.racktables_id,
        p.name = "" ∨ change_interface_name p.name d.objtype_id
          ∈ aget st1.namesFor d.netbox_id [] := by
      intro d hd p hp
      rcases hall d (List.mem_cons_of_mem _ hd) p hp with h | h
      · exact Or.inl h
      · right
        rw [hn1]
        exact h
    obtain ⟨hn2, hc2, hr2⟩ := ih st1 hall2
    rw [List.foldl_cons]
    refine ⟨by rw [hn2, hn1], by rw [hc2, hc1], ?_⟩
    intro d hd p hp hpname
    rcases List.mem_cons.mp hd with rfl | hd2
    · exact devices_foldl_conn_mono env ports rest st1 p.id (hr1 p hp hpname)
    · exact hr2 d hd2 p hp hpname

theorem buildInterfaceMaps_counter (recs : List (Nat × String × Nat)) :
    (buildInterfaceMaps recs).interface_counter = 0 := by
  unfold buildInterfaceMaps
  suffices haux : ∀ (rs : List (Nat × String × Nat)) (st : IfaceState),
      (rs.foldl (fun st r =>
        { st with
          namesFor := aupdate st.namesFor r.1 [] (fun s => insertIfAbsent s r.2.1),
          idsFor := aupdate st.idsFor r.1 [] (fun m => aput m r.2.1 r.2.2) }) st).interface_counter
        = st.interface_counter by
    simpa using haux recs ⟨[], [], [], 0, 0, []⟩
  intro rs
  induction rs with
  | nil => intro st; rfl
  | cons r rest ih => intro st; rw [List.foldl_cons, ih]

/-- C10 counterexample: the conclusion "after the stage completes, every
port whose normalized name is present on its device has a cache entry"
fails when an interface-create call fails and a later port carrying the
same normalized name is created successfully: here port 1's create fails,
port 2 (same name "Gi1", normalized "GigabitEthernet1", on the same device)
succeeds, so at completion the name is present on device 5 but port 1 has
no connection_ids entry. -/
theorem C10_counterexample :
    ("GigabitEthernet1" ∈ aget (create_interfaces_run [] [⟨"dev", 77, 5, 8⟩]
        (fun rid => if rid = 77 then [⟨1, "Gi1", 0, ""⟩, ⟨2, "Gi1", 0, ""⟩] else [])
        (fun i => if i = 1 then some 10 else none)).namesFor 5 []) ∧
    hasKey (create_interfaces_run [] [⟨"dev", 77, 5, 8⟩]
        (fun rid => if rid = 77 then [⟨1, "Gi1", 0, ""⟩, ⟨2, "Gi1", 0, ""⟩] else [])
        (fun i => if i = 1 then some 10 else none)).connection_ids 1 = false ∧
    hasKey (create_interfaces_run [] [⟨"dev", 77, 5, 8⟩]
        (fun rid => if rid = 77 then [⟨1, "Gi1", 0, ""⟩, ⟨2, "Gi1", 0, ""⟩] else [])
        (fun i => if i = 1 then some 10 else none)).connection_ids 2 = true := by
  refine ⟨by decide, by decide, by decide⟩

/-- C10 (amended): the skip branch does record the port-id →
existing-interface-id link before skipping creation; consequently (i) when
no interface-create call fails during the stage, every port with a
non-empty name — in particular every port whose normalized name is present
on its device — has a cache entry at completion, and (ii) on a re-run where
every named port's normalized name already exists on its device, the stage
creates no interfaces (the counter stays 0 and the name sets are untouched)
and still gives every named port a cache entry, so the later cable stage
can resolve both endpoints. -/
theorem C10_theorem :
    (∀ (env : Nat → Option Nat) (d : DevEntry) (st : IfaceState) (p : PortRow),
       p.name ≠ "" →
       change_interface_name p.name d.objtype_id ∈ aget st.namesFor d.netbox_id [] →
       hasKey (create_interfaces_port env d st p).connection_ids p.id = true) ∧
    (∀ (recs : List (Nat × String × Nat)) (devices : List DevEntry)
       (ports : Nat → List PortRow) (env : Nat → Option Nat),
       (∀ i, (env i).isSome = true) →
       ∀ d ∈ devices, ∀ p ∈ ports d.racktables_id, p.name ≠ "" →
       hasKey (create_interfaces_run recs devices ports env).connection_ids p.id
         = true) ∧
    (∀ (recs : List (Nat × String × Nat)) (devices : List DevEntry)
       (ports : Nat → List PortRow) (env : Nat → Option Nat),
       (∀ d ∈ devices, ∀ p ∈ ports d.racktables_id,
         p.name = "" ∨ change_interface_name p.name d.objtype_id
           ∈ aget (buildInterfaceMaps recs).namesFor d.netbox_id []) →
       (create_interfaces_run recs devices ports env).interface_counter = 0 ∧
       ∀ d ∈ devices, ∀ p ∈ ports d.racktables_id, p.name ≠ "" →
         hasKey (create_interfaces_run recs devices ports env).connection_ids p.id
           = true) := by
  refine ⟨create_interfaces_port_skip_records, ?_, ?_⟩
  · intro recs devices ports env hsucc d hd p hp hname
    unfold create_interfaces_run
    revert hd
    suffices haux : ∀ (ds : List DevEntry) (st : IfaceState), d ∈ ds →
        hasKey ((ds.foldl (fun st d => (ports d.racktables_id).foldl
          (create_interfaces_port env d) st) st)).connection_ids p.id = true by
      intro hd
      exact haux devices _ hd
    intro ds
    induction ds with
    | nil => intro st hd; cases hd
    | cons d0 rest ih =>
      intro st hd
      rw [List.foldl_cons]
      rcases List.mem_cons.mp hd with rfl | hd2
      · exact devices_foldl_conn_mono env ports rest _ p.id
          (ports_foldl_success_records env d hsucc _ st p hp hname)
      · exact ih _ hd2
  · intro recs devices ports env hall
    obtain ⟨hn, hc, hr⟩ := devices_foldl_all_present env ports devices
      (buildInterfaceMaps recs) hall
    refine ⟨?_, hr⟩
    unfold create_interfaces_run
    rw [hc, buildInterfaceMaps_counter]

/-- C10 witness: with all creates succeeding, a named port gets a cache
entry; and on a re-run whose single port's name already exists on the
device, no interface is created and the port still gets its entry. -/
theorem C10_witness :
    hasKey (create_interfaces_run [] [⟨"dev", 77, 5, 8⟩]
        (fun rid => if rid = 77 then [⟨1, "Gi1", 0, ""⟩] else [])
        (fun i => some (100 + i))).connection_ids 1 = true ∧
    ((create_interfaces_run [(5, "eth0", 9)] [⟨"dev", 77, 5, 4⟩]
        (fun rid => if rid = 77 then [⟨1, "eth0", 0, ""⟩] else [])
        (fun _ => none)).interface_counter = 0 ∧
     ∀ d ∈ [(⟨"dev", 77, 5, 4⟩ : DevEntry)],
       ∀ p ∈ (fun rid => if rid = 77 then [(⟨1, "eth0", 0, ""⟩ : PortRow)] else [])
         d.racktables_id,
       p.name ≠ "" →
       hasKey (create_interfaces_run [(5, "eth0", 9)] [⟨"dev", 77, 5, 4⟩]
        (fun rid => if rid = 77 then [⟨1, "eth0", 0, ""⟩] else [])
        (fun _ => none)).connection_ids p.id = true) :=
  ⟨C10_theorem.2.1 [] [⟨"dev", 77, 5, 8⟩]
      (fun rid => if rid = 77 then [⟨1, "Gi1", 0, ""⟩] else [])
      (fun i => some (100 + i)) (fun i => rfl)
      ⟨"dev", 77, 5, 8⟩ (by decide) ⟨1, "Gi1", 0, ""⟩ (by decide) (by decide),
   C10_theorem.2.2 [(5, "eth0", 9)] [⟨"dev", 77, 5, 4⟩]
      (fun rid => if rid = 77 then [⟨1, "eth0", 0, ""⟩] else [])
      (fun _ => none) (by decide)⟩


/-- C2: starting from a state with no device at either location and the
name unused, two source devices with the same name processed in one run
behave as claimed: with differing location tuples the first create yields
the plain name and the second a distinct device named `name.1` (two devices
added in total); with identical tuples the second call performs no create
and returns the already-created device's name and id unchanged.  In
general, a create whose name is already taken is suffixed `.k` for the
smallest counter `k ≥ 1` whose name is free (`.1`, then `.2`, and so on). -/
theorem C2_theorem (st : DevState) (device_name : String) (t1 t2 : LocTuple)
    (a1 a2 : Option String)
    (h1 : ∀ d ∈ st.global_devices, matchesLocation t1 d = false)
    (h2 : ∀ d ∈ st.global_devices, matchesLocation t2 d = false)
    (hn : device_name ∉ st.global_names)
    (hn1 : counterName device_name "." 1 ∉ st.global_names) :
    (create_device_at_location st true device_name t1 a1).1
        = some (device_name, st.nextId) ∧
    (t1 ≠ t2 →
      (create_device_at_location
          (create_device_at_location st true device_name t1 a1).2
          true device_name t2 a2).1
        = some (device_name ++ "." ++ natStr 1, st.nextId + 1) ∧
      ((create_device_at_location
          (create_device_at_location st true device_name t1 a1).2
          true device_name t2 a2).2).global_devices.length
        = st.global_devices.length + 2) ∧
    ((create_device_at_location
        (create_device_at_location st true device_name t1 a1).2
        true device_name t1 a2).1
      = some (device_name, st.nextId) ∧
     ((create_device_at_location
        (create_device_at_location st true device_name t1 a1).2
        true device_name t1 a2).2)
      = (create_device_at_location st true device_name t1 a1).2) ∧
    (∀ (st' : DevState) (nm : String) (t : LocTuple) (a : Option String),
      st'.global_devices.find? (matchesLocation t) = none →
      nm ∈ st'.global_names →
      ∃ k, 1 ≤ k ∧
        (create_device_at_location st' true nm t a).1
          = some (counterName nm "." k, st'.nextId) ∧
        counterName nm "." k ∉ st'.global_names ∧
        ∀ j, 1 ≤ j → j < k → counterName nm "." j ∈ st'.global_names) := by
  have hfind1 : st.global_devices.find? (matchesLocation t1) = none :=
    List.find?_eq_none.mpr (fun d hd => by simp [h1 d hd])
  obtain ⟨hr1, hdev1, hnames1, hid1⟩ := cdal_create_ok st device_name t1 a1 hfind1
  have huniq1 : uniquifyName device_name "." st.global_names = device_name :=
    uniquifyName_of_not_mem hn
  have hnames1' : (create_device_at_location st true device_name t1 a1).2.global_names
      = st.global_names ++ [device_name] := by
    rw [hnames1, huniq1, insertIfAbsent, if_neg hn]
  refine ⟨by rw [hr1, huniq1], ?_, ?_, ?_⟩
  · intro hne
    set st1 := (create_device_at_location st true device_name t1 a1).2 with hst1
    have hfind2 : st1.global_devices.find? (matchesLocation t2) = none := by
      apply List.find?_eq_none.mpr
      intro d hd
      rw [hdev1] at hd
      rcases List.mem_append.mp hd with hmem | hmem
      · simp [h2 d hmem]
      · rcases List.mem_singleton.mp hmem with rfl
        simp only [Bool.not_eq_true]
        rw [← Bool.not_eq_true]
        intro hcon
        exact hne (matchesLocation_mkDevRec.mp hcon).symm
    obtain ⟨hr2, hdev2, _, _⟩ := cdal_create_ok st1 device_name t2 a2 hfind2
    have hmem1 : device_name ∈ st1.global_names := by
      rw [hnames1']
      exact List.mem_append.mpr (Or.inr (List.mem_singleton.mpr rfl))
    have hnot1 : counterName device_name "." 1 ∉ st1.global_names := by
      rw [hnames1']
      intro hmem
      rcases List.mem_append.mp hmem with hmem | hmem
      · exact hn1 hmem
      · exact counterName_ne_base 1 (by decide) (List.mem_singleton.mp hmem)
    have huniq2 : uniquifyName device_name "." st1.global_names
        = counterName device_name "." 1 := uniquifyName_first hmem1 hnot1
    constructor
    · rw [hr2, huniq2, hid1]
      rfl
    · rw [hdev2, hdev1]
      simp
  · set st1 := (create_device_at_location st true device_name t1 a1).2 with hst1
    have hfind3 : st1.global_devices.find? (matchesLocation t1)
        = some (mkDevRec device_name st.nextId t1) := by
      rw [hdev1, huniq1, find?_append_of_none hfind1]
      exact List.find?_cons_of_pos _ (matchesLocation_mkDevRec.mpr rfl)
    rw [cdal_match st1 true device_name t1 a2 _ hfind3]
    exact ⟨rfl, rfl⟩
  · intro st2 nm t a hfind hmem
    obtain ⟨hr, _, _, _⟩ := cdal_create_ok st2 nm t a hfind
    obtain ⟨k, hk1, huq, hnot, hmin⟩ := uniquifyName_minimal nm "." st2.global_names hmem
    exact ⟨k, hk1, by rw [hr, huq], hnot, hmin⟩

/-- C2 witness: from an empty state, two same-named devices at different
rack positions produce `sw1` then `sw1.1`; re-submitting the first location
returns `sw1` with no new device. -/
theorem C2_witness :
    (create_device_at_location ⟨[], [], [], 0⟩ true "sw1"
        ⟨"front", 1, "r", "m", "mod", "s", "rk"⟩ none).1 = some ("sw1", 0) ∧
    (create_device_at_location
        (create_device_at_location ⟨[], [], [], 0⟩ true "sw1"
          ⟨"front", 1, "r", "m", "mod", "s", "rk"⟩ none).2
        true "sw1" ⟨"front", 2, "r", "m", "mod", "s", "rk"⟩ none).1
      = some ("sw1" ++ "." ++ natStr 1, 1) ∧
    (create_device_at_location
        (create_device_at_location ⟨[], [], [], 0⟩ true "sw1"
          ⟨"front", 1, "r", "m", "mod", "s", "rk"⟩ none).2
        true "sw1" ⟨"front", 1, "r", "m", "mod", "s", "rk"⟩ none).1
      = some ("sw1", 0) ∧
    (∃ k, 1 ≤ k ∧
      (create_device_at_location ⟨[], ["sw1"], [], 5⟩ true "sw1"
        ⟨"front", 3, "r", "m", "mod", "s", "rk"⟩ none).1
        = some (counterName "sw1" "." k, 5) ∧
      counterName "sw1" "." k ∉ ["sw1"] ∧
      ∀ j, 1 ≤ j → j < k → counterName "sw1" "." j ∈ ["sw1"]) := by
  have h := C2_theorem ⟨[], [], [], 0⟩ "sw1"
    ⟨"front", 1, "r", "m", "mod", "s", "rk"⟩ ⟨"front", 2, "r", "m", "mod", "s", "rk"⟩
    none none (by simp) (by simp) (by simp) (by simp)
  exact ⟨h.1, (h.2.1 (by decide)).1, h.2.2.1.1,
    h.2.2.2 ⟨[], ["sw1"], [], 5⟩ "sw1" ⟨"front", 3, "r", "m", "mod", "s", "rk"⟩ none
      (by simp) (by decide)⟩

/-! ### Claim C8 — VLAN name uniqueness within a group (confirmed) -/

/-- The invariant threaded through the VLAN loop: every name created so far
in a group is tracked in that group's name set, and the created names of
each group are pairwise distinct. -/
def VlanInv (st : VlanState) : Prop :=
  ∀ g, (∀ n ∈ createdNamesInGroup st g, n ∈ aget st.vlans_for_group g []) ∧
    (createdNamesInGroup st g).Nodup

theorem create_vlans_step_preserves (env : Nat → Bool) (st : VlanState)
    (row : VlanRow) (hinv : VlanInv st) : VlanInv (create_vlans_step env st row) := by
  unfold create_vlans_step
  cases hdescr : row.descr with
  | none => exact hinv
  | some d =>
    by_cases hd : d = ""
    · simp only [hd, if_pos rfl]
      exact hinv
    · simp only [hd, if_neg, if_false]
      by_cases henv : env st.callIdx
      · simp only [henv, if_true]
        intro g
        have hname := uniquifyName_not_mem d "-" (aget st.vlans_for_group row.group [])
        set name := uniquifyName d "-" (aget st.vlans_for_group row.group []) with hn
        have hfilter : createdNamesInGroup
            ⟨aupdate st.vlans_for_group row.group [] (fun s => insertIfAbsent s name),
             st.calls ++ [(row.group, row.vid, name)],
             st.created ++ [(row.group, row.vid, name, st.nextId)],
             aput st.network_map row.net_id (row.group, name, st.nextId),
             st.nextId + 1, st.callIdx + 1⟩ g
            = createdNamesInGroup st g ++
              (if (row.group == g) then [name] else []) := by
          unfold createdNamesInGroup
          rw [List.filter_append, List.map_append]
          congr 1
          by_cases hg : row.group == g
          · simp [hg]
          · simp [hg]
        by_cases hg : row.group = g
        · subst hg
          constructor
          · intro n hmem
            rw [hfilter] at hmem
            simp only [beq_self_eq_true, if_true] at hmem
            have hagets : aget (aupdate st.vlans_for_group row.group []
                (fun s => insertIfAbsent s name)) row.group []
                = insertIfAbsent (aget st.vlans_for_group row.group []) name :=
              aget_aupdate_self _ _ _ _
            rw [hagets]
            rcases List.mem_append.mp hmem with h | h
            · exact mem_insertIfAbsent_of_mem ((hinv row.group).1 n h)
            · rcases List.mem_singleton.mp h with rfl
              exact self_mem_insertIfAbsent _ _
          · rw [hfilter]
            simp only [beq_self_eq_true, if_true]
            rw [List.nodup_append]
            refine ⟨(hinv row.group).2, List.nodup_singleton _, ?_⟩
            intro n hn1 hn2
            rcases List.mem_singleton.mp hn2 with rfl
            exact hname ((hinv row.group).1 _ hn1)
        · have hbeq : (row.group == g) = false := beq_eq_false_iff_ne.mpr hg
          constructor
          · intro n hmem
            rw [hfilter, hbeq] at hmem
            simp only [Bool.false_eq_true, if_false, List.append_nil] at hmem
            rw [aget_aupdate_ne _ _ _ _ _ _ hg]
            exact (hinv g).1 n hmem
          · rw [hfilter, hbeq]
            simp only [Bool.false_eq_true, if_false, List.append_nil]
            exact (hinv g).2
      · simp only [henv, if_false]
        intro g
        exact hinv g

theorem create_vlans_foldl_inv (env : Nat → Bool) :
    ∀ (rows : List VlanRow) (st : VlanState), VlanInv st →
      VlanInv (rows.foldl (create_vlans_step env) st) := by
  intro rows
  induction rows with
  | nil => intro st h; exact h
  | cons r rest ih =>
    intro st h
    rw [List.foldl_cons]
    exact ih _ (create_vlans_step_preserves env st r h)

/-- C8: (i) across any run, the VLAN names successfully created within one
group are pairwise distinct; (ii) whenever a source VLAN maps to a name
already used in its group, the loop issues the create call under the name
`X-k` for the smallest counter `k ≥ 1` not yet used in that group (so the
second collision gets `X-1`, the next `X-2`, and so on). -/
theorem C8_theorem :
    (∀ (rows : List VlanRow) (env : Nat → Bool) (g : String),
       (createdNamesInGroup (create_vlans_run rows env) g).Nodup) ∧
    (∀ (env : Nat → Bool) (st : VlanState) (row : VlanRow) (d : String),
       row.descr = some d → d ≠ "" →
       d ∈ aget st.vlans_for_group row.group [] →
       ∃ k, 1 ≤ k ∧
         (create_vlans_step env st row).calls
           = st.calls ++ [(row.group, row.vid, counterName d "-" k)] ∧
         counterName d "-" k ∉ aget st.vlans_for_group row.group [] ∧
         ∀ j, 1 ≤ j → j < k →
           counterName d "-" j ∈ aget st.vlans_for_group row.group []) := by
  constructor
  · intro rows env g
    have hinit : VlanInv ⟨[], [], [], [], 0, 0⟩ := by
      intro g'
      constructor
      · intro n hn
        simp [createdNamesInGroup] at hn
      · simp [createdNamesInGroup]
    exact ((create_vlans_foldl_inv env rows _ hinit) g).2
  · intro env st row d hdescr hd hmem
    obtain ⟨k, hk1, heq, hnot, hmin⟩ :=
      uniquifyName_minimal d "-" (aget st.vlans_for_group row.group []) hmem
    refine ⟨k, hk1, ?_, hnot, hmin⟩
    unfold create_vlans_step
    rw [hdescr]
    simp only [hd, if_neg, if_false]
    by_cases henv : env st.callIdx
    · simp only [henv, if_true]
      rw [← heq]
    · simp only [henv, Bool.false_eq_true, if_false]
      rw [← heq]

/-- C8 witness: in a state where group "G" already holds the name "X", a
second source VLAN named "X" is created as "X-1"; concretely, a run over two
identical rows creates "X" then "X-1", distinct names. -/
theorem C8_witness :
    (∃ k, 1 ≤ k ∧
      (create_vlans_step (fun _ => true)
          ⟨[("G", ["X"])], [("G", 1, "X")], [("G", 1, "X", 0)], [], 1, 1⟩
          ⟨"G", 2, some "X", 6⟩).calls
        = [("G", 1, "X")] ++ [("G", 2, counterName "X" "-" k)] ∧
      counterName "X" "-" k ∉
        aget [("G", ["X"])] "G" ([] : List String) ∧
      ∀ j, 1 ≤ j → j < k →
        counterName "X" "-" j ∈ aget [("G", ["X"])] "G" ([] : List String)) ∧
    (createdNamesInGroup
      (create_vlans_run [⟨"G", 1, some "X", 5⟩, ⟨"G", 2, some "X", 6⟩]
        (fun _ => true)) "G").Nodup :=
  ⟨C8_theorem.2 (fun _ => true)
      ⟨[("G", ["X"])], [("G", 1, "X")], [("G", 1, "X", 0)], [], 1, 1⟩
      ⟨"G", 2, some "X", 6⟩ "X" rfl (by decide) (by decide),
   C8_theorem.1 [⟨"G", 1, some "X", 5⟩, ⟨"G", 2, some "X", 6⟩] (fun _ => true) "G"⟩

/-! ### Claim C1 — second-run idempotence of the pipeline (corrected) -/

/-- Each VLAN-loop iteration issues one create call exactly when the row has
a non-empty description, no matter what the target already holds or whether
the calls succeed. -/
theorem create_vlans_step_calls (env : Nat → Bool) (st : VlanState) (r : VlanRow) :
    (create_vlans_step env st r).calls.length
      = st.calls.length + (if vlanRowNamed r then 1 else 0) := by
  unfold create_vlans_step vlanRowNamed
  cases r.descr with
  | none => simp
  | some d =>
    by_cases hd : d = ""
    · simp [hd]
    · simp only [hd, if_false]
      by_cases he : env st.callIdx <;> simp [he, hd]

theorem create_vlans_run_calls (rows : List VlanRow) (env : Nat → Bool) :
    (create_vlans_run rows env).calls.length = rows.countP vlanRowNamed := by
  unfold create_vlans_run
  suffices haux : ∀ (rows : List VlanRow) (st : VlanState),
      (rows.foldl (create_vlans_step env) st).calls.length
        = st.calls.length + rows.countP vlanRowNamed by
    simpa using haux rows ⟨[], [], [], [], 0, 0⟩
  intro rows'
  induction rows' with
  | nil => intro st; simp
  | cons r rest ih =>
    intro st
    rw [List.foldl_cons, ih, create_vlans_step_calls, List.countP_cons]
    split_ifs <;> omega

/-- C1 counterexample: the VLAN stage never consults target state — its
create-call list is a function of the source rows alone (the embedded
`create_vlans_run`, like `vlans.py::create_vlans`, takes no target
argument and issues `netbox.ipam.create_vlan` for every named source VLAN
row).  Hence on a second run against a target already holding VLAN "X" of
group "G" the stage still issues that create call (here with the call
failing, as NetBox would reject the duplicate): the number of creates
issued on the re-run is 1, not the claimed 0. -/
theorem C1_counterexample :
    (create_vlans_run [⟨"G", 7, some "X", 5⟩] (fun _ => false)).calls
        = [("G", 7, "X")] ∧
    (create_vlans_run [⟨"G", 7, some "X", 5⟩] (fun _ => false)).calls.length ≠ 0 := by
  refine ⟨by decide, by decide⟩

/-- C1 (amended): the prefix stage and the non-racked-device stage do find
an existing target resource before creating — when every source row's
prefix string (resp. stripped device name) is already present in the
target, a second run issues zero creates — but the VLAN stage does not:
it issues exactly one `create_vlan` call per named source VLAN row on
every run, regardless of the target's contents and of call outcomes. -/
theorem C1_theorem :
    (∀ (IP : String) (rows : List NetworkRow) (existing : List (Nat × Nat)),
       (∀ r ∈ rows, (r.ip, r.mask) ∈ existing) →
       create_ip_networks_creates IP rows existing = []) ∧
    (∀ (data : List PCRow) (existing : List String),
       (∀ r ∈ data, r.name = "" ∨ strTrim r.name ∈ existing) →
       create_parent_child_creates data existing = []) ∧
    (∀ (rows : List VlanRow) (env : Nat → Bool),
       (create_vlans_run rows env).calls.length = rows.countP vlanRowNamed) := by
  refine ⟨?_, ?_, create_vlans_run_calls⟩
  · intro IP rows existing hall
    rw [create_ip_networks_creates, List.filterMap_eq_nil_iff]
    intro r hr
    split_ifs with h1 h2
    · rfl
    · rfl
    · exact absurd (hall r hr) h2
  · intro data existing hall
    rw [create_parent_child_creates, List.filterMap_eq_nil_iff]
    intro r hr
    rcases hall r hr with h | h
    · rw [if_pos h]
    · by_cases hne : r.name = ""
      · rw [if_pos hne]
      · rw [if_neg hne, if_pos h]

/-- C1 witness: a prefix row already present creates nothing; a device row
already named creates nothing; one named VLAN row issues one create call
even with the target populated and the call failing. -/
theorem C1_witness :
    create_ip_networks_creates "4" [⟨1, 5, 24, "n", "c"⟩] [(5, 24)] = [] ∧
    create_parent_child_creates [⟨1, "srv", "l", none, "c"⟩] ["srv"] = [] ∧
    (create_vlans_run [⟨"G", 7, some "X", 5⟩] (fun _ => false)).calls.length
      = [(⟨"G", 7, some "X", 5⟩ : VlanRow)].countP vlanRowNamed :=
  ⟨C1_theorem.1 "4" [⟨1, 5, 24, "n", "c"⟩] [(5, 24)] (by decide),
   C1_theorem.2.1 [⟨1, "srv", "l", none, "c"⟩] ["srv"] (by decide),
   C1_theorem.2.2 [⟨"G", 7, some "X", 5⟩] (fun _ => false)⟩

end R2N

